import Mathlib

/-!
CareOps backend — verification of the scheduling/booking core

A shallow embedding of the availability-resolution and booking-scheduling
engine of the CareOps backend (TypeScript), together with proofs about the
spec's claims.

Modelling conventions, shared by all definitions below:

* Absolute instants (ISO date strings compared through `new Date(x).getTime()`
  in the source) are modelled as integers (`Instant`, milliseconds since the
  epoch).  All comparisons of ISO strings in the source go through
  `Date.getTime()`, so integer comparison is a faithful model.
* Entity `createdAt`/`updatedAt` bookkeeping timestamps are omitted: no claim
  refers to them and they influence no control flow in the modelled code.
* The external Google-calendar collaborator (`upsertBookingCalendarEventIfConnected`,
  `deleteBookingCalendarEventIfConnected`) is best-effort and only writes the
  `calendarEventId` field, which no modelled control flow reads; it is omitted.
* Conversations/messages (`createConversationMessage`) belong to the excluded
  messaging subsystem; their state is omitted.  The function's only effect on
  the modelled collections is none.
* `crypto.randomUUID()` / `randomPublicToken()` are modelled by a deterministic
  fresh-id counter threaded through the state (`nextId`).
* `sha256(JSON.stringify(body))` is modelled as an injective digest: the digest
  of a request body is the body itself (SHA-256 is deterministic and assumed
  collision-free).
* Time-zone conversion (`dateAtTimeInTimeZoneIso`, `toDateKeyInTimeZone`,
  `weekdayInTimeZone` from `core.ts`) is the Time/Zone utility collaborator;
  it is passed to the scheduling functions as an explicit `TimeZoneOps`
  argument, exactly where the source passes a `timeZone` string.
-/

namespace CareOps

/-- Milliseconds since the Unix epoch, the value of `Date.getTime()`. -/
abbrev Instant := Int

/-- `BookingStatus` from `types.ts`. -/
inductive BookingStatus where
  | pending
  | confirmed
  | completed
  | no_show
  | cancelled
deriving DecidableEq, Repr

/-- `Booking` from `types.ts` (timestamps and the external calendar reference
omitted, see the module docstring). -/
structure Booking where
  id : String
  workspaceId : String
  contactId : String
  serviceId : String
  startsAt : Instant
  endsAt : Instant
  status : BookingStatus
  deletedAt : Option Instant
deriving DecidableEq, Repr

/-- `overlap` from `core.ts`: half-open interval overlap on instants. -/
def overlap (startA endA startB endB : Instant) : Bool :=
  decide (startA < endB) && decide (startB < endA)

/-- `isBookingOverlapping` from `domain.ts`: does any booking of the workspace
with status not in {cancelled, no_show} and id different from the excluded one
overlap `[startsAt, endsAt)`?  The JS guard `excludeBookingId &&
booking.id === excludeBookingId` treats the empty string as "no exclusion",
which the `eid ≠ ""` conjunct mirrors. -/
def isBookingOverlapping (bookings : List Booking) (workspaceId : String)
    (startsAt endsAt : Instant) (excludeBookingId : Option String) : Bool :=
  bookings.any fun booking =>
    (booking.workspaceId == workspaceId) &&
    !(match excludeBookingId with
      | some eid => !(eid == "") && booking.id == eid
      | none => false) &&
    !(booking.status == .cancelled || booking.status == .no_show) &&
    (decide (startsAt < booking.endsAt) && decide (booking.startsAt < endsAt))

/-! ## Generic helper: in-place mutation of the first matching list element

The routes obtain an entity with `Array.prototype.find` and then mutate the
returned object in place; on the backing list this updates exactly the first
element satisfying the predicate. -/

/-- Replace the first element satisfying `p` by its image under `f`. -/
def updateFirstBy (p : α → Bool) (f : α → α) : List α → List α
  | [] => []
  | x :: xs => if p x then f x :: xs else x :: updateFirstBy p f xs

/-! ## Time helpers from `core.ts` -/

/-- `addMinutes` from `core.ts`. -/
def addMinutes (dateIso : Instant) (minutes : Int) : Instant :=
  dateIso + minutes * 60000

/-- `addHours` from `core.ts`. -/
def addHours (dateIso : Instant) (hours : Int) : Instant :=
  addMinutes dateIso (hours * 60)

/-- `addDays` from `core.ts`. -/
def addDays (dateIso : Instant) (days : Int) : Instant :=
  dateIso + days * 86400000

/-- Parse an `HH:MM` string (the `HHMM_PATTERN` shape validated by
`serviceRoutes.ts`) to minutes after midnight.  `Date.setUTCHours(h, m)` in
`dateAtTimeIso` accepts any two-digit numbers and rolls over, which
`h * 60 + m` reproduces. -/
def hhmmToMinutes (s : String) : Option Int :=
  match s.toList with
  | [h1, h2, ':', m1, m2] =>
    if h1.isDigit && h2.isDigit && m1.isDigit && m2.isDigit then
      some ((((h1.toNat - '0'.toNat) * 10 + (h2.toNat - '0'.toNat)) * 60 +
        ((m1.toNat - '0'.toNat) * 10 + (m2.toNat - '0'.toNat)) : Nat) : Int)
    else none
  | _ => none

/-- Epoch milliseconds of `2000-01-01T00:00:00.000Z`, the fixed anchor date
used by the rule-conflict checks. -/
def epoch2000 : Instant := 946684800000

/-- `dateAtTimeIso("2000-01-01", hhmm)` from `core.ts`, as an instant.  All
call sites pass `HH:mm`-validated strings (or the `"00:00"` default); invalid
strings, which would throw in the source, are mapped to midnight. -/
def dateAtTime2000 (hhmm : String) : Instant :=
  epoch2000 + (hhmmToMinutes hhmm).getD 0 * 60000

/-! ## Data model (`types.ts`) -/

/-- `Workspace` from `types.ts`; only the fields read by the modelled routes
are kept.  The public-flow field configuration is an excluded validation-glue
concern and is represented by the `fieldCheck` function argument of
`createPublicBooking`. -/
structure Workspace where
  id : String
  name : String
  timezone : String
deriving DecidableEq, Repr

/-- `ServiceInventoryRule` from `types.ts`. -/
structure ServiceInventoryRule where
  itemId : String
  quantity : Int
deriving DecidableEq, Repr

/-- `Service` from `types.ts` (`locationType` is inert data and omitted). -/
structure Service where
  id : String
  workspaceId : String
  name : String
  durationMin : Int
  inventoryRules : List ServiceInventoryRule
  bookingFormTemplateId : Option String
  isActive : Bool
deriving DecidableEq, Repr

/-- The availability rule kinds of `serviceRoutes.ts` / `bookingRoutes`. -/
inductive RuleType where
  | weekly
  | date_override
  | date_block
deriving DecidableEq, Repr

/-- `AvailabilityRule` from `types.ts`: all shape fields are optional, exactly
as in the source interface. -/
structure AvailabilityRule where
  id : String
  workspaceId : String
  serviceId : String
  ruleType : Option RuleType
  weekday : Option Int
  date : Option String
  startTime : Option String
  endTime : Option String
  bufferMin : Option Int
  slotIntervalMin : Option Int
  isClosedAllDay : Option Bool
deriving DecidableEq, Repr

/-- `InventoryItem` from `types.ts`. -/
structure InventoryItem where
  id : String
  workspaceId : String
  name : String
  unit : String
  quantityOnHand : Int
  lowStockThreshold : Int
  isActive : Bool
deriving DecidableEq, Repr

/-- `Contact` from `types.ts` (tags/customFields are inert for the modelled
flows and omitted). -/
structure Contact where
  id : String
  workspaceId : String
  firstName : String
  lastName : String
  email : Option String
  phone : Option String
deriving DecidableEq, Repr

/-- `FormTemplate` from `types.ts`, the fields the booking flow reads. -/
structure FormTemplate where
  id : String
  workspaceId : String
  trigger : String
deriving DecidableEq, Repr

/-- `FormRequestStatus` from `types.ts`. -/
inductive FormRequestStatus where
  | pending
  | completed
  | overdue
deriving DecidableEq, Repr

/-- `FormRequest` from `types.ts`. -/
structure FormRequest where
  id : String
  workspaceId : String
  bookingId : String
  contactId : String
  templateId : String
  status : FormRequestStatus
  dueAt : Instant
  publicToken : String
deriving DecidableEq, Repr

/-- `JobStatus` from `types.ts`. -/
inductive JobStatus where
  | queued
  | running
  | done
  | failed
deriving DecidableEq, Repr

/-- `JobPriority` from `types.ts`. -/
inductive JobPriority where
  | high
  | normal
  | low
deriving DecidableEq, Repr

/-- The job payloads the source enqueues (`{ bookingId }` for reminders,
`{ formRequestId }` for overdue checks). -/
structure JobPayload where
  bookingId : Option String := none
  formRequestId : Option String := none
deriving DecidableEq, Repr

/-- `ScheduledJob` from `types.ts`.  `jobType` is kept as a string because the
worker dispatches on string equality and treats unknown types as no-ops. -/
structure ScheduledJob where
  id : String
  workspaceId : String
  jobType : String
  runAt : Instant
  status : JobStatus
  priority : JobPriority
  payload : JobPayload
  attempts : Int
  lastError : Option String
  lockedAt : Option Instant
  lockOwner : Option String
deriving DecidableEq, Repr

/-- Alert severity from `types.ts`. -/
inductive AlertSeverity where
  | info
  | warning
  | critical
deriving DecidableEq, Repr

/-- `Alert` from `types.ts`. -/
structure Alert where
  id : String
  workspaceId : String
  type : String
  severity : AlertSeverity
  message : String
  link : Option String
deriving DecidableEq, Repr

/-- The payloads of the automation events emitted by the modelled flows.
`emitEvent` hashes `(eventType, entityType, entityId, payload)` with SHA-256;
digest equality is modelled as structural payload equality. -/
inductive EventPayload where
  | lowStock (quantityOnHand lowStockThreshold : Int)
  | bookingCreated (startsAt : Instant) (serviceId : String)
  | bookingStatus (status : BookingStatus)
  | bookingDeleted (status : BookingStatus) (cancelledAt : Instant)
  | bookingRescheduled (startsAt endsAt : Instant)
  | reminderDue (startsAt : Instant)
  | formOverdue (dueAt : Instant)
  | formRequested (bookingId : String)
deriving DecidableEq, Repr

/-- `AutomationEvent` from `types.ts` (the always-`processed` status fields are
inert and omitted; the `eventHash` is represented by the structured payload,
see `EventPayload`). -/
structure AutomationEvent where
  id : String
  workspaceId : String
  eventType : String
  entityType : String
  entityId : String
  payload : EventPayload
deriving DecidableEq, Repr

/-- The public-flow submission after field extraction
(`findSubmissionValueByKeyHints` / `findSubmissionValueByFieldType` over the
submitted map, with the `"Guest"`/`"Lead"` fallbacks applied); this extraction
is pure string glue over the request body and is modelled by its result. -/
structure ContactFields where
  firstName : String
  lastName : String
  email : Option String
  phone : Option String
  notes : Option String
deriving DecidableEq, Repr

/-- The public booking request body.  `startsAt` is the parsed value of the
submitted ISO string (`none` both when the field is missing and when
`new Date(startsAt)` is invalid; the source reports the two cases with
different 400 messages but neither touches state). -/
structure BookingBody where
  serviceId : Option String
  startsAt : Option Instant
  fields : ContactFields
deriving DecidableEq, Repr

/-- The `{ id, status, publicToken, dueAt }` projection of a form request that
the booking route puts into its response snapshot. -/
structure FormRequestSummary where
  id : String
  status : FormRequestStatus
  publicToken : String
  dueAt : Instant
deriving DecidableEq, Repr

/-- The response snapshot stored by the public booking route. -/
structure Snapshot where
  booking : Booking
  formRequest : Option FormRequestSummary
deriving DecidableEq, Repr

/-- `IdempotencyKey` from `types.ts`, specialised to the booking route: the
request hash is the (injective) digest of the booking body and the stored
response snapshot is a `Snapshot`. -/
structure IdempotencyKey where
  id : String
  workspaceId : String
  key : String
  method : String
  path : String
  requestHash : BookingBody
  responseSnapshot : Snapshot
  expiresAt : Instant
deriving DecidableEq, Repr

/-- The in-memory `state` of `store.ts`, restricted to the collections the
modelled flows read or write, plus the fresh-id counter modelling
`crypto.randomUUID()` / `randomPublicToken()`.  Conversations, messages,
users, sessions, members and integration connections belong to excluded
subsystems. -/
structure AppState where
  workspaces : List Workspace
  services : List Service
  availabilityRules : List AvailabilityRule
  bookings : List Booking
  inventoryItems : List InventoryItem
  contacts : List Contact
  formTemplates : List FormTemplate
  formRequests : List FormRequest
  scheduledJobs : List ScheduledJob
  idempotencyKeys : List IdempotencyKey
  automationEvents : List AutomationEvent
  alerts : List Alert
  nextId : Nat
deriving DecidableEq, Repr

/-- Deterministic model of `crypto.randomUUID()`: the `n`-th generated id. -/
def freshId (n : Nat) : String :=
  "id-" ++ toString n

/-- Allocate a fresh id and advance the generator. -/
def allocId (st : AppState) : String × AppState :=
  (freshId st.nextId, { st with nextId := st.nextId + 1 })

/-! ## Store operations (`store.ts`) -/

/-- `emitEvent` from `store.ts`: appends an automation event unless one with
the same (workspace, eventType, entityType, entityId) and an identical payload
(equal SHA-256 `eventHash`) already exists. -/
def emitEvent (st : AppState) (workspaceId eventType entityType entityId : String)
    (payload : EventPayload) : AppState :=
  match st.automationEvents.find? (fun event =>
      event.workspaceId == workspaceId && event.eventType == eventType &&
      event.entityType == entityType && event.entityId == entityId &&
      event.payload == payload) with
  | some _ => st
  | none =>
    let (eid, st') := allocId st
    { st' with automationEvents := st'.automationEvents ++
        [{ id := eid, workspaceId, eventType, entityType, entityId, payload }] }

/-- `createAlert` from `store.ts`. -/
def createAlert (st : AppState) (workspaceId type : String) (severity : AlertSeverity)
    (message : String) (link : Option String := none) : AppState :=
  let (aid, st') := allocId st
  { st' with alerts := st'.alerts ++
      [{ id := aid, workspaceId, type, severity, message, link }] }

/-- `enqueueJob` from `store.ts`. -/
def enqueueJob (st : AppState) (workspaceId jobType : String) (runAt : Instant)
    (payload : JobPayload) (priority : Option JobPriority) : AppState :=
  let (jid, st') := allocId st
  { st' with scheduledJobs := st'.scheduledJobs ++
      [{ id := jid, workspaceId, jobType, runAt, status := .queued,
         priority := priority.getD .normal, payload, attempts := 0,
         lastError := none, lockedAt := none, lockOwner := none }] }

/-- `createFormRequest` from `store.ts`: creates the pending form request and
enqueues its overdue check two days out. -/
def createFormRequest (st : AppState) (now : Instant)
    (workspaceId bookingId contactId templateId : String) (dueAt : Instant) :
    FormRequest × AppState :=
  let (rid, st1) := allocId st
  let (token, st2) := allocId st1
  let request : FormRequest :=
    { id := rid, workspaceId, bookingId, contactId, templateId,
      status := .pending, dueAt, publicToken := token }
  let st3 := { st2 with formRequests := st2.formRequests ++ [request] }
  let st4 := enqueueJob st3 workspaceId "form.overdue_check" (addDays now 2)
    { formRequestId := some request.id } (some .normal)
  (request, st4)

/-- JS truthiness of a possibly-absent string (`undefined` and `""` are
falsy). -/
def strFalsy : Option String → Bool
  | none => true
  | some s => s == ""

/-- `findIdempotency` from `store.ts`. -/
def findIdempotency (st : AppState) (workspaceId key method path : String) :
    Option IdempotencyKey :=
  st.idempotencyKeys.find? fun item =>
    item.workspaceId == workspaceId && item.key == key &&
    item.method == method && item.path == path

/-- `saveIdempotency` from `store.ts`: records the digest and response
snapshot with a 24-hour expiry. -/
def saveIdempotency (st : AppState) (now : Instant)
    (workspaceId key method path : String) (requestHash : BookingBody)
    (responseSnapshot : Snapshot) : AppState :=
  let (rid, st') := allocId st
  { st' with idempotencyKeys := st'.idempotencyKeys ++
      [{ id := rid, workspaceId, key, method, path, requestHash,
         responseSnapshot, expiresAt := addDays now 1 }] }

/-- `cleanupExpiredRecords` from `store.ts`, restricted to the idempotency
ledger (expired-session removal belongs to the excluded identity subsystem). -/
def cleanupExpiredRecords (st : AppState) (now : Instant) : AppState :=
  { st with idempotencyKeys :=
      st.idempotencyKeys.filter fun item => decide (now < item.expiresAt) }

/-- `findOrCreateContact` from `store.ts`: dedupe by normalized email/phone,
fill missing fields on the existing contact, otherwise create. -/
def findOrCreateContact (st : AppState) (workspaceId firstName lastName : String)
    (email phone : Option String) : Contact × AppState :=
  let normalizedEmail := email.map fun s => s.trim.toLower
  let normalizedPhone := phone.map fun s => s.trim
  let sameContact : Contact → Bool := fun contact =>
    contact.workspaceId == workspaceId &&
    ((!strFalsy normalizedEmail && contact.email == normalizedEmail) ||
      (!strFalsy normalizedPhone && contact.phone == normalizedPhone))
  match st.contacts.find? sameContact with
  | some existing =>
    let merged := { existing with
      email := if !strFalsy normalizedEmail && strFalsy existing.email then
          normalizedEmail else existing.email,
      phone := if !strFalsy normalizedPhone && strFalsy existing.phone then
          normalizedPhone else existing.phone }
    (merged, { st with contacts := updateFirstBy sameContact (fun _ => merged) st.contacts })
  | none =>
    let (cid, st') := allocId st
    let contact : Contact :=
      { id := cid, workspaceId, firstName := firstName.trim,
        lastName := lastName.trim, email := normalizedEmail,
        phone := normalizedPhone }
    (contact, { st' with contacts := st'.contacts ++ [contact] })

/-! ## Inventory consumption (`domain.ts`) -/

/-- The error strings returned by `applyInventoryOnBookingCompleted`. -/
inductive InventoryError where
  | bookingNotFound
  | serviceNotFound
  | insufficient (itemName : String)
deriving DecidableEq, Repr

/-- The per-rule item lookup of `applyInventoryOnBookingCompleted`. -/
def findInventoryItem (items : List InventoryItem) (workspaceId itemId : String) :
    Option InventoryItem :=
  items.find? fun item => item.workspaceId == workspaceId && item.id == itemId

/-- The first (sufficiency-check) loop of `applyInventoryOnBookingCompleted`:
the first rule whose existing item is short produces the error; rules whose
item is missing are skipped. -/
def checkInventoryRules (items : List InventoryItem) (workspaceId : String) :
    List ServiceInventoryRule → Option String
  | [] => none
  | rule :: rest =>
    match findInventoryItem items workspaceId rule.itemId with
    | none => checkInventoryRules items workspaceId rest
    | some item =>
      if item.quantityOnHand < rule.quantity then some item.name
      else checkInventoryRules items workspaceId rest

/-- The low-stock alert message of `domain.ts`. -/
def lowStockMessage (name : String) (quantityOnHand : Int) (unit : String) : String :=
  name ++ " is low on stock (" ++ toString quantityOnHand ++ " " ++ unit ++ ")."

/-- One step of the deduction loop of `applyInventoryOnBookingCompleted`:
skip missing items, deduct the configured quantity, and emit the low-stock
alert/event when the post-deduction quantity is at or below the threshold. -/
def applyInventoryRule (st : AppState) (workspaceId : String)
    (rule : ServiceInventoryRule) : AppState :=
  match findInventoryItem st.inventoryItems workspaceId rule.itemId with
  | none => st
  | some item =>
    let newQty := item.quantityOnHand - rule.quantity
    let deduct : InventoryItem → InventoryItem := fun i =>
      { i with quantityOnHand := i.quantityOnHand - rule.quantity }
    let itemPred : InventoryItem → Bool := fun i =>
      i.workspaceId == workspaceId && i.id == rule.itemId
    let st1 := { st with inventoryItems := updateFirstBy itemPred deduct st.inventoryItems }
    if newQty ≤ item.lowStockThreshold then
      let st2 := createAlert st1 workspaceId "inventory.low_stock" .warning
        (lowStockMessage item.name newQty item.unit)
      emitEvent st2 workspaceId "inventory.low_stock" "inventory_item" item.id
        (.lowStock newQty item.lowStockThreshold)
    else st1

/-- The full deduction loop. -/
def applyInventoryRules (st : AppState) (workspaceId : String)
    (rules : List ServiceInventoryRule) : AppState :=
  rules.foldl (fun acc rule => applyInventoryRule acc workspaceId rule) st

/-- `applyInventoryOnBookingCompleted` from `domain.ts`. -/
def applyInventoryOnBookingCompleted (st : AppState) (workspaceId bookingId : String) :
    Option InventoryError × AppState :=
  match st.bookings.find? (fun item =>
      item.id == bookingId && item.workspaceId == workspaceId) with
  | none => (some .bookingNotFound, st)
  | some booking =>
    match st.services.find? (fun item =>
        item.id == booking.serviceId && item.workspaceId == workspaceId) with
    | none => (some .serviceNotFound, st)
    | some service =>
      match checkInventoryRules st.inventoryItems workspaceId service.inventoryRules with
      | some name => (some (.insufficient name), st)
      | none => (none, applyInventoryRules st workspaceId service.inventoryRules)

/-! ## Availability resolution (booking routes) -/

/-- The Time/Zone utility collaborator (§4.1): conversion of a date key and an
`HH:mm` time-of-day to an absolute instant in a fixed zone, and the date-key /
weekday projections of an instant in that zone (`dateAtTimeInTimeZoneIso`,
`toDateKeyInTimeZone`, `weekdayInTimeZone` from `core.ts`). -/
structure TimeZoneOps where
  atTime : String → String → Instant
  dateKeyOf : Instant → String
  weekdayOf : Instant → Int

/-- A zone name resolves to its conversion functions. -/
abbrev TimeZones := String → TimeZoneOps

/-- `AvailabilityWindow` from the booking routes. -/
structure AvailabilityWindow where
  startIso : Instant
  endIso : Instant
  stepMin : Int
deriving DecidableEq, Repr

/-- `ResolvedAvailability` from the booking routes. -/
structure ResolvedAvailability where
  windows : List AvailabilityWindow
  blockedWindows : List (Instant × Instant)
  closedAllDay : Bool
deriving DecidableEq, Repr

/-- `resolveRuleType` of the booking routes (and `resolveExistingRuleType` of
`serviceRoutes.ts`): absent rule types default to `weekly`. -/
def resolveRuleType (rule : AvailabilityRule) : RuleType :=
  rule.ruleType.getD .weekly

/-- `toAvailabilityWindow` from the booking routes. -/
def toAvailabilityWindow (tz : TimeZoneOps) (dateKey : String)
    (rule : AvailabilityRule) (defaultStepMin : Int) : Option AvailabilityWindow :=
  let startTime := rule.startTime.getD ""
  let endTime := rule.endTime.getD ""
  if startTime == "" || endTime == "" then none
  else
    let startIso := tz.atTime dateKey startTime
    let endIso := tz.atTime dateKey endTime
    if endIso ≤ startIso then none
    else
      let configuredStep :=
        match rule.slotIntervalMin with
        | some n => if 0 < n then n else defaultStepMin
        | none => defaultStepMin
      some { startIso := startIso, endIso := endIso, stepMin := max 1 configuredStep }

/-- The accumulator of the rule loop in `resolveAvailabilityForDate`. -/
structure ResolveAcc where
  weeklyWindows : List AvailabilityWindow
  overrideWindows : List AvailabilityWindow
  blockedWindows : List (Instant × Instant)
  closedAllDay : Bool
deriving DecidableEq, Repr

/-- One iteration of the rule loop in `resolveAvailabilityForDate`.  The
source checks `rule.date !== input.dateKey` once before distinguishing
overrides from blocks; here the check is repeated in both non-weekly arms,
which is equivalent. -/
def resolveStep (tz : TimeZoneOps) (workspaceId serviceId dateKey : String)
    (weekday serviceDurationMin : Int) (acc : ResolveAcc)
    (rule : AvailabilityRule) : ResolveAcc :=
  if !(rule.workspaceId == workspaceId && rule.serviceId == serviceId) then acc
  else
    match resolveRuleType rule with
    | .weekly =>
      if rule.weekday != some weekday then acc
      else
        let defaultStep := serviceDurationMin + max 0 (rule.bufferMin.getD 0)
        match toAvailabilityWindow tz dateKey rule defaultStep with
        | some w => { acc with weeklyWindows := acc.weeklyWindows ++ [w] }
        | none => acc
    | .date_override =>
      if rule.date != some dateKey then acc
      else
        let defaultStep := serviceDurationMin + max 0 (rule.bufferMin.getD 0)
        match toAvailabilityWindow tz dateKey rule defaultStep with
        | some w => { acc with overrideWindows := acc.overrideWindows ++ [w] }
        | none => acc
    | .date_block =>
      if rule.date != some dateKey then acc
      else if rule.isClosedAllDay.getD false then { acc with closedAllDay := true }
      else
        match toAvailabilityWindow tz dateKey rule 1 with
        | some w =>
          { acc with blockedWindows := acc.blockedWindows ++ [(w.startIso, w.endIso)] }
        | none => acc

/-- `resolveAvailabilityForDate` from the booking routes: date-override
windows replace weekly windows when any exist. -/
def resolveAvailabilityForDate (tz : TimeZoneOps) (rules : List AvailabilityRule)
    (workspaceId serviceId dateKey : String) (weekday serviceDurationMin : Int) :
    ResolvedAvailability :=
  let acc := rules.foldl
    (resolveStep tz workspaceId serviceId dateKey weekday serviceDurationMin)
    ⟨[], [], [], false⟩
  { windows := if acc.overrideWindows.isEmpty then acc.weeklyWindows else acc.overrideWindows,
    blockedWindows := acc.blockedWindows,
    closedAllDay := acc.closedAllDay }

/-- `isBlockedByException` from the booking routes. -/
def isBlockedByException (startsAt endsAt : Instant)
    (resolved : ResolvedAvailability) : Bool :=
  resolved.closedAllDay ||
    resolved.blockedWindows.any fun blocked => overlap startsAt endsAt blocked.1 blocked.2

/-- `isWithinAvailabilityRule` from the booking routes (the `NaN` start check
of the source is handled upstream by the `Option Instant` parse). -/
def isWithinAvailabilityRule (tz : TimeZoneOps) (rules : List AvailabilityRule)
    (workspaceId serviceId : String) (startsAt endsAt : Instant)
    (serviceDurationMin : Int) : Bool :=
  let dateKey := tz.dateKeyOf startsAt
  let weekday := tz.weekdayOf startsAt
  let resolved := resolveAvailabilityForDate tz rules workspaceId serviceId dateKey
    weekday serviceDurationMin
  if resolved.windows.isEmpty || resolved.closedAllDay then false
  else resolved.windows.any fun w =>
    decide (w.startIso ≤ startsAt) && decide (endsAt ≤ w.endIso) &&
    !isBlockedByException startsAt endsAt resolved

/-- The cursor walk of the public slots route over one window, with explicit
fuel: each iteration advances the cursor by `stepMin ≥ 1` minutes, so
`(endIso - startIso).toNat + 1` iterations always suffice to reach the end of
the window. -/
def slotWalk (bookings : List Booking) (workspaceId : String) (durationMin : Int)
    (resolved : ResolvedAvailability) (w : AvailabilityWindow) :
    Nat → Instant → List (Instant × Instant) × List Instant →
      List (Instant × Instant) × List Instant
  | 0, _, acc => acc
  | fuel + 1, cursor, (slots, seen) =>
    if cursor < w.endIso then
      let slotEnd := addMinutes cursor durationMin
      if w.endIso < slotEnd then (slots, seen)
      else
        let next := addMinutes cursor w.stepMin
        if !isBookingOverlapping bookings workspaceId cursor slotEnd none &&
            !isBlockedByException cursor slotEnd resolved && !(seen.contains cursor) then
          slotWalk bookings workspaceId durationMin resolved w fuel next
            (slots ++ [(cursor, slotEnd)], seen ++ [cursor])
        else
          slotWalk bookings workspaceId durationMin resolved w fuel next (slots, seen)
    else (slots, seen)

/-- The slot enumeration of `GET /public/:workspaceId/slots`: walk every
resolved window (sharing the dedup set), then sort ascending by start. -/
def generateSlots (bookings : List Booking) (workspaceId : String) (durationMin : Int)
    (resolved : ResolvedAvailability) : List (Instant × Instant) :=
  let collected :=
    if resolved.closedAllDay then (([], []) : List (Instant × Instant) × List Instant)
    else resolved.windows.foldl
      (fun acc w =>
        slotWalk bookings workspaceId durationMin resolved w
          ((w.endIso - w.startIso).toNat + 1) w.startIso acc)
      ([], [])
  List.insertionSort (fun a b => a.1 ≤ b.1) collected.1

/-! ## Availability-rule store (`serviceRoutes.ts`) -/

/-- The typed errors of the modelled route handlers. -/
inductive RouteError where
  | notFound (what : String)
  | badRequest (msg : String)
  | conflict (msg : String)
  | invalidTransition (fromStatus toStatus : BookingStatus)
  | inventoryConflict (e : InventoryError)
deriving DecidableEq, Repr

/-- `NormalizedAvailabilityRuleInput` from `serviceRoutes.ts`: the result of
`parseAvailabilityRuleInput` (the payload parsing itself is pure validation
glue; a parse error returns 400 and leaves the store unchanged). -/
structure NormalizedAvailabilityRuleInput where
  ruleType : RuleType
  weekday : Option Int := none
  date : Option String := none
  startTime : Option String := none
  endTime : Option String := none
  bufferMin : Option Int := none
  slotIntervalMin : Option Int := none
  isClosedAllDay : Option Bool := none
deriving DecidableEq, Repr

/-- `normalizeAvailabilityRule` from `serviceRoutes.ts`. -/
def normalizeAvailabilityRule (rule : AvailabilityRule) : AvailabilityRule :=
  let normalizedType := resolveRuleType rule
  if normalizedType == .date_block then
    { rule with
      ruleType := some normalizedType,
      isClosedAllDay := some (rule.isClosedAllDay.getD false) }
  else
    { rule with
      ruleType := some normalizedType,
      bufferMin := some (rule.bufferMin.getD 0) }

/-- `hasOverlappingRule` from `serviceRoutes.ts`: a stored rule of the same
kind for the same service conflicts with the candidate when (weekly) the
weekdays match and the 2000-01-01-anchored time intervals overlap, or
(date kinds) the dates match and the intervals overlap, with all-day blocks
conflicting with every block on their date. -/
def hasOverlappingRule (rules : List AvailabilityRule) (workspaceId serviceId : String)
    (candidate : NormalizedAvailabilityRuleInput) (excludeRuleId : Option String) : Bool :=
  rules.any fun rawRule =>
    if !(rawRule.workspaceId == workspaceId) || !(rawRule.serviceId == serviceId) ||
        (match excludeRuleId with
         | some eid => !(eid == "") && rawRule.id == eid
         | none => false) then false
    else
      let rule := normalizeAvailabilityRule rawRule
      if rule.ruleType != some candidate.ruleType then false
      else
        match candidate.ruleType with
        | .weekly =>
          if rule.weekday != candidate.weekday then false
          else
            overlap (dateAtTime2000 (candidate.startTime.getD "00:00"))
              (dateAtTime2000 (candidate.endTime.getD "00:00"))
              (dateAtTime2000 (rule.startTime.getD "00:00"))
              (dateAtTime2000 (rule.endTime.getD "00:00"))
        | .date_block =>
          if rule.date != candidate.date then false
          else if candidate.isClosedAllDay.getD false || rule.isClosedAllDay.getD false then
            true
          else
            overlap (dateAtTime2000 (candidate.startTime.getD "00:00"))
              (dateAtTime2000 (candidate.endTime.getD "00:00"))
              (dateAtTime2000 (rule.startTime.getD "00:00"))
              (dateAtTime2000 (rule.endTime.getD "00:00"))
        | .date_override =>
          if rule.date != candidate.date then false
          else
            overlap (dateAtTime2000 (candidate.startTime.getD "00:00"))
              (dateAtTime2000 (candidate.endTime.getD "00:00"))
              (dateAtTime2000 (rule.startTime.getD "00:00"))
              (dateAtTime2000 (rule.endTime.getD "00:00"))

/-- `applyRuleShape` from `serviceRoutes.ts`. -/
def applyRuleShape (target : AvailabilityRule)
    (input : NormalizedAvailabilityRuleInput) : AvailabilityRule :=
  let base : AvailabilityRule := { target with
    ruleType := some input.ruleType,
    weekday := if input.ruleType == RuleType.weekly then input.weekday else none,
    date := if input.ruleType == RuleType.weekly then none else input.date }
  if input.ruleType == .date_block then
    if input.isClosedAllDay.getD false then
      { base with
        isClosedAllDay := some true, startTime := none, endTime := none,
        bufferMin := none, slotIntervalMin := none }
    else
      { base with
        isClosedAllDay := some false, startTime := input.startTime,
        endTime := input.endTime, bufferMin := none, slotIntervalMin := none }
  else
    { base with
      isClosedAllDay := some false, startTime := input.startTime,
      endTime := input.endTime, bufferMin := some (input.bufferMin.getD 0),
      slotIntervalMin := input.slotIntervalMin }

/-- `POST /availability-rules` from `serviceRoutes.ts`, after payload
parsing: service lookup, conflict check, insert. -/
def postAvailabilityRule (st : AppState) (workspaceId serviceId : String)
    (input : NormalizedAvailabilityRuleInput) :
    Except RouteError AvailabilityRule × AppState :=
  match st.services.find? (fun item =>
      item.id == serviceId && item.workspaceId == workspaceId) with
  | none => (.error (.notFound "Service not found"), st)
  | some _ =>
    if hasOverlappingRule st.availabilityRules workspaceId serviceId input none then
      (.error (.conflict "Overlapping availability rule exists"), st)
    else
      let (rid, st') := allocId st
      let rule := applyRuleShape
        { id := rid, workspaceId, serviceId, ruleType := some input.ruleType,
          weekday := none, date := none, startTime := none, endTime := none,
          bufferMin := none, slotIntervalMin := none, isClosedAllDay := none } input
      (.ok (normalizeAvailabilityRule rule),
        { st' with availabilityRules := st'.availabilityRules ++ [rule] })

/-- `PATCH /availability-rules/:id` from `serviceRoutes.ts`, after payload
parsing: rule lookup, conflict check excluding the rule itself, reshape. -/
def patchAvailabilityRule (st : AppState) (workspaceId ruleId : String)
    (input : NormalizedAvailabilityRuleInput) :
    Except RouteError AvailabilityRule × AppState :=
  match st.availabilityRules.find? (fun item =>
      item.id == ruleId && item.workspaceId == workspaceId) with
  | none => (.error (.notFound "availability rule not found"), st)
  | some rule =>
    if hasOverlappingRule st.availabilityRules workspaceId rule.serviceId input
        (some rule.id) then
      (.error (.conflict "Overlapping availability rule exists"), st)
    else
      let rulePred : AvailabilityRule → Bool := fun item =>
        item.id == ruleId && item.workspaceId == workspaceId
      (.ok (normalizeAvailabilityRule (applyRuleShape rule input)),
        { st with availabilityRules :=
            updateFirstBy rulePred (fun r => applyRuleShape r input) st.availabilityRules })

/-! ## Booking lifecycle routes (booking routes file) -/

/-- The transition table of `PATCH /bookings/:id/status`. -/
def allowedTransitions : BookingStatus → List BookingStatus
  | .pending => [.confirmed, .cancelled, .no_show]
  | .confirmed => [.completed, .cancelled, .no_show]
  | .completed => []
  | .no_show => []
  | .cancelled => []

/-- The event type emitted after a status transition. -/
def bookingStatusEventType : BookingStatus → String
  | .confirmed => "booking.confirmed"
  | .completed => "booking.completed"
  | _ => "booking.updated"

/-- The lookup predicate of the authenticated booking routes: matching id and
workspace, not soft-deleted. -/
def liveBookingPred (workspaceId bookingId : String) : Booking → Bool := fun item =>
  item.id == bookingId && item.workspaceId == workspaceId && item.deletedAt == none

/-- `workspace.timezone || "UTC"`. -/
def effectiveTimezone (w : Workspace) : String :=
  if w.timezone == "" then "UTC" else w.timezone

/-- `PATCH /bookings/:id/status`: transition-table check, inventory
consumption on completion, then the status write and event emission.  The
`targetStatus` argument is the result of `parseBookingStatus` (an invalid
status string is a 400 with no state change). -/
def transitionBookingStatus (st : AppState) (workspaceId bookingId : String)
    (targetStatus : BookingStatus) : Except RouteError Booking × AppState :=
  match st.bookings.find? (liveBookingPred workspaceId bookingId) with
  | none => (.error (.notFound "booking not found"), st)
  | some booking =>
    if targetStatus ∉ allowedTransitions booking.status then
      (.error (.invalidTransition booking.status targetStatus), st)
    else
      let inv :=
        if targetStatus == BookingStatus.completed then
          applyInventoryOnBookingCompleted st workspaceId booking.id
        else (none, st)
      match inv with
      | (some e, stInv) => (.error (.inventoryConflict e), stInv)
      | (none, stInv) =>
        let updated := { booking with status := targetStatus }
        let newBookings := updateFirstBy (liveBookingPred workspaceId bookingId)
          (fun b => { b with status := targetStatus }) stInv.bookings
        let st1 := { stInv with bookings := newBookings }
        let st2 := emitEvent st1 workspaceId (bookingStatusEventType targetStatus)
          "booking" booking.id (.bookingStatus targetStatus)
        (.ok updated, st2)

/-- `DELETE /bookings/:id`: soft delete — cancel and tombstone. -/
def softDeleteBooking (st : AppState) (workspaceId bookingId : String)
    (now : Instant) : Except RouteError Booking × AppState :=
  match st.bookings.find? (liveBookingPred workspaceId bookingId) with
  | none => (.error (.notFound "booking not found"), st)
  | some booking =>
    let updated := { booking with status := BookingStatus.cancelled, deletedAt := some now }
    let newBookings := updateFirstBy (liveBookingPred workspaceId bookingId)
      (fun b => { b with status := BookingStatus.cancelled, deletedAt := some now })
      st.bookings
    let st1 := { st with bookings := newBookings }
    let st2 := emitEvent st1 workspaceId "booking.updated" "booking" booking.id
      (.bookingDeleted BookingStatus.cancelled now)
    (.ok updated, st2)

/-- `POST /bookings/:id/reschedule`: availability and overlap re-validation
(excluding the booking itself), then the interval write.  `startsAtInput` is
the parsed submitted start (`none` when missing or unparsable, both 400). -/
def rescheduleBooking (tzs : TimeZones) (st : AppState)
    (workspaceId bookingId : String) (startsAtInput : Option Instant) :
    Except RouteError Booking × AppState :=
  match st.workspaces.find? (fun w => w.id == workspaceId) with
  | none => (.error (.notFound "workspace not found"), st)
  | some workspace =>
    match st.bookings.find? (liveBookingPred workspaceId bookingId) with
    | none => (.error (.notFound "booking not found"), st)
    | some booking =>
      if booking.status == BookingStatus.completed ||
          booking.status == BookingStatus.cancelled ||
          booking.status == BookingStatus.no_show then
        (.error (.conflict "Cannot reschedule this booking"), st)
      else
        match startsAtInput with
        | none => (.error (.badRequest "startsAt is required"), st)
        | some startsAt =>
          match st.services.find? (fun item =>
              item.id == booking.serviceId && item.workspaceId == workspaceId) with
          | none => (.error (.notFound "service not found"), st)
          | some service =>
            let endsAt := addMinutes startsAt service.durationMin
            let tz := tzs (effectiveTimezone workspace)
            if !isWithinAvailabilityRule tz st.availabilityRules workspaceId
                service.id startsAt endsAt service.durationMin then
              (.error (.conflict "Requested slot is outside availability rules"), st)
            else if isBookingOverlapping st.bookings workspaceId startsAt endsAt
                (some booking.id) then
              (.error (.conflict "Selected time slot is not available"), st)
            else
              let updated := { booking with startsAt := startsAt, endsAt := endsAt }
              let newBookings := updateFirstBy (liveBookingPred workspaceId bookingId)
                (fun b => { b with startsAt := startsAt, endsAt := endsAt })
                st.bookings
              let st1 := { st with bookings := newBookings }
              let st2 := emitEvent st1 workspaceId "booking.updated" "booking"
                booking.id (.bookingRescheduled startsAt endsAt)
              (.ok updated, st2)

/-- The responses of the public booking route. -/
inductive BookingResponse where
  | created (snapshot : Snapshot)
  | replayed (snapshot : Snapshot)
  | failed (e : RouteError)
deriving DecidableEq, Repr

/-- The `req.path` of the public booking route. -/
def publicBookingPath (workspaceIdParam : String) : String :=
  "/public/" ++ workspaceIdParam ++ "/bookings"

/-- `POST /public/:workspaceId/bookings`.  `fieldCheck` models
`getWorkspacePublicFlowConfig` + `validatePublicFieldSubmission`, a pure check
of the submitted field map against the workspace's configured public-flow
fields (excluded validation glue); `idempotencyKey` is the request header
(`none`/empty ⇒ 400). -/
def createPublicBooking (tzs : TimeZones) (fieldCheck : ContactFields → Option String)
    (st : AppState) (workspaceIdParam : String) (idempotencyKey : Option String)
    (body : BookingBody) (now : Instant) : BookingResponse × AppState :=
  match st.workspaces.find? (fun w => w.id == workspaceIdParam) with
  | none => (.failed (.notFound "workspace not found"), st)
  | some workspace =>
    if strFalsy idempotencyKey then
      (.failed (.badRequest "Idempotency-Key header is required"), st)
    else
      let key := idempotencyKey.getD ""
      let requestHash := body
      let path := publicBookingPath workspaceIdParam
      match findIdempotency st workspace.id key "POST" path with
      | some existing =>
        if existing.requestHash != requestHash then
          (.failed (.conflict "Idempotency-Key reuse with different payload"), st)
        else
          (.replayed existing.responseSnapshot, st)
      | none =>
        match body.serviceId, body.startsAt with
        | some serviceId, some startsAt =>
          if serviceId == "" then
            (.failed (.badRequest "serviceId and startsAt are required"), st)
          else
            match fieldCheck body.fields with
            | some msg => (.failed (.badRequest msg), st)
            | none =>
              match st.services.find? (fun item =>
                  item.workspaceId == workspace.id && item.id == serviceId &&
                  item.isActive) with
              | none => (.failed (.notFound "service not found"), st)
              | some service =>
                let endsAt := addMinutes startsAt service.durationMin
                let tz := tzs (effectiveTimezone workspace)
                if !isWithinAvailabilityRule tz st.availabilityRules workspace.id
                    service.id startsAt endsAt service.durationMin then
                  (.failed (.conflict "Requested slot is outside availability rules"), st)
                else if isBookingOverlapping st.bookings workspace.id startsAt
                    endsAt none then
                  (.failed (.conflict "Selected time slot is not available"), st)
                else
                  let (contact, st1) := findOrCreateContact st workspace.id
                    body.fields.firstName body.fields.lastName
                    (body.fields.email.map (fun s => s.toLower)) body.fields.phone
                  let (bid, st2) := allocId st1
                  let booking : Booking :=
                    { id := bid, workspaceId := workspace.id, contactId := contact.id,
                      serviceId := service.id, startsAt := startsAt, endsAt := endsAt,
                      status := .pending, deletedAt := none }
                  let st3 := { st2 with bookings := st2.bookings ++ [booking] }
                  let st4 := emitEvent st3 workspace.id "booking.created" "booking"
                    booking.id (.bookingCreated booking.startsAt booking.serviceId)
                  let reminderRunAt := booking.startsAt - 24 * 60 * 60 * 1000
                  let st5 := enqueueJob st4 workspace.id "booking.reminder"
                    reminderRunAt { bookingId := some booking.id } (some .high)
                  let serviceTemplate := service.bookingFormTemplateId.bind fun tid =>
                    st5.formTemplates.find? fun t =>
                      t.workspaceId == workspace.id && t.trigger == "post_booking" &&
                      t.id == tid
                  let (formRequest, st6) :=
                    match serviceTemplate with
                    | some template =>
                      let (req, stA) := createFormRequest st5 now workspace.id
                        booking.id contact.id template.id (addHours now 48)
                      let stB := emitEvent stA workspace.id "form.requested"
                        "form_request" req.id (.formRequested booking.id)
                      (some req, stB)
                    | none => (none, st5)
                  let snapshot : Snapshot :=
                    { booking := booking,
                      formRequest := formRequest.map fun fr =>
                        { id := fr.id, status := fr.status,
                          publicToken := fr.publicToken, dueAt := fr.dueAt } }
                  let st7 := saveIdempotency st6 now workspace.id key "POST" path
                    requestHash snapshot
                  (.created snapshot, st7)
        | _, _ => (.failed (.badRequest "serviceId and startsAt are required"), st)

/-! ## Job scheduler (worker loop) -/

/-- `priorityWeight` from the worker file. -/
def priorityWeight : JobPriority → Int
  | .high => 0
  | .normal => 1
  | .low => 2

/-- The selection order of the worker: priority weight ascending, then due
instant ascending (the non-strict closure of the source's comparator). -/
def jobLe (a b : ScheduledJob) : Prop :=
  priorityWeight a.priority < priorityWeight b.priority ∨
    (priorityWeight a.priority = priorityWeight b.priority ∧ a.runAt ≤ b.runAt)

instance : DecidableRel jobLe := fun a b => by unfold jobLe; infer_instance

instance : IsTotal ScheduledJob jobLe where
  total a b := by
    unfold jobLe
    rcases lt_trichotomy (priorityWeight a.priority) (priorityWeight b.priority) with h | h | h
    · exact Or.inl (Or.inl h)
    · rcases le_total a.runAt b.runAt with hr | hr
      · exact Or.inl (Or.inr ⟨h, hr⟩)
      · exact Or.inr (Or.inr ⟨h.symm, hr⟩)
    · exact Or.inr (Or.inl h)

instance : IsTrans ScheduledJob jobLe where
  trans a b c hab hbc := by
    unfold jobLe at *
    rcases hab with h1 | ⟨h1, h1'⟩ <;> rcases hbc with h2 | ⟨h2, h2'⟩
    · exact Or.inl (h1.trans h2)
    · exact Or.inl (lt_of_lt_of_le h1 (le_of_eq h2))
    · exact Or.inl (lt_of_le_of_lt (le_of_eq h1) h2)
    · exact Or.inr ⟨h1.trans h2, h1'.trans h2'⟩

/-- The batch selection of `runWorkerTick`: queued jobs due at `now`, sorted
by priority then due instant, first ten. -/
def selectDueJobs (jobs : List ScheduledJob) (now : Instant) : List ScheduledJob :=
  (List.insertionSort jobLe
    (jobs.filter fun job =>
      job.status == JobStatus.queued && decide (job.runAt ≤ now))).take 10

/-- Job lookup by id (`processJob` re-finds its job in the store). -/
def jobPred (jobId : String) : ScheduledJob → Bool := fun item => item.id == jobId

/-- `processJob` from the worker file, on the no-exception path (the `catch`
branch models handler exceptions, which the modelled handlers cannot raise):
run the type-specific handler, then mark the job done and count the attempt.
The reminder handler's `createConversationMessage` belongs to the excluded
messaging subsystem and has no effect on the modelled collections. -/
def processJob (st : AppState) (now : Instant) (jobId : String) : AppState :=
  match st.scheduledJobs.find? (jobPred jobId) with
  | none => st
  | some job =>
    let st1 :=
      if job.jobType == "booking.reminder" then
        let bookingId := job.payload.bookingId.getD ""
        match st.bookings.find? (fun item =>
            item.id == bookingId && item.workspaceId == job.workspaceId) with
        | some booking =>
          if booking.status != BookingStatus.cancelled &&
              booking.status != BookingStatus.completed then
            match st.contacts.find? (fun item =>
                item.id == booking.contactId &&
                item.workspaceId == booking.workspaceId) with
            | some _ =>
              emitEvent st booking.workspaceId "booking.reminder_due" "booking"
                booking.id (.reminderDue booking.startsAt)
            | none => st
          else st
        | none => st
      else if job.jobType == "form.overdue_check" then
        let formRequestId := job.payload.formRequestId.getD ""
        let frPred : FormRequest → Bool := fun item =>
          item.id == formRequestId && item.workspaceId == job.workspaceId
        match st.formRequests.find? frPred with
        | some formRequest =>
          if formRequest.status == FormRequestStatus.pending &&
              decide (formRequest.dueAt ≤ now) then
            let newRequests := updateFirstBy frPred
              (fun fr => { fr with status := FormRequestStatus.overdue }) st.formRequests
            let stA := { st with formRequests := newRequests }
            let stB := createAlert stA formRequest.workspaceId "form.overdue" .warning
              ("Form request " ++ formRequest.id ++ " is overdue.")
              (some ("/forms/" ++ formRequest.id))
            emitEvent stB formRequest.workspaceId "form.overdue" "form_request"
              formRequest.id (.formOverdue formRequest.dueAt)
          else st
        | none => st
      else st
    let doneJobs := updateFirstBy (jobPred jobId)
      (fun j => { j with status := JobStatus.done, attempts := j.attempts + 1 })
      st1.scheduledJobs
    { st1 with scheduledJobs := doneJobs }

/-- The claim/lock write at the top of the per-job loop in `runWorkerTick`. -/
def markJobRunning (st : AppState) (now : Instant) (jobId : String) : AppState :=
  let runningJobs := updateFirstBy (jobPred jobId)
    (fun j => { j with
      status := JobStatus.running, lockedAt := some now,
      lockOwner := some "local-worker-1" })
    st.scheduledJobs
  { st with scheduledJobs := runningJobs }

/-- `runWorkerTick` from the worker file: cleanup, select the due batch, then
claim and process each selected job. -/
def runWorkerTick (st : AppState) (now : Instant) : AppState :=
  let st0 := cleanupExpiredRecords st now
  let dueJobs := selectDueJobs st0.scheduledJobs now
  dueJobs.foldl (fun acc job => processJob (markJobRunning acc now job.id) now job.id) st0

/-! ## The no-overlap invariant and the booking operations as one step type -/

/-- A booking that counts for conflicts: status not in {cancelled, no_show}. -/
def activeBooking (b : Booking) : Prop :=
  b.status ≠ .cancelled ∧ b.status ≠ .no_show

/-- The spec's invariant: no two distinct active bookings of the same tenant
overlap in time (bookings are identified by id). -/
def noOverlapInvariant (bs : List Booking) : Prop :=
  ∀ b1 ∈ bs, ∀ b2 ∈ bs, b1.id ≠ b2.id → b1.workspaceId = b2.workspaceId →
    activeBooking b1 → activeBooking b2 →
    ¬(b1.startsAt < b2.endsAt ∧ b2.startsAt < b1.endsAt)

/-- The four booking-mutating operations of the booking routes. -/
inductive BookingOp where
  | create (workspaceIdParam : String) (idempotencyKey : Option String) (body : BookingBody)
  | transition (workspaceId bookingId : String) (target : BookingStatus)
  | softDelete (workspaceId bookingId : String)
  | reschedule (workspaceId bookingId : String) (startsAtInput : Option Instant)

/-- The state effect of one booking operation (error responses leave the
state as the handler returned it). -/
def applyBookingOp (tzs : TimeZones) (fieldCheck : ContactFields → Option String)
    (now : Instant) (st : AppState) : BookingOp → AppState
  | .create p k b => (createPublicBooking tzs fieldCheck st p k b now).2
  | .transition ws bid t => (transitionBookingStatus st ws bid t).2
  | .softDelete ws bid => (softDeleteBooking st ws bid now).2
  | .reschedule ws bid s => (rescheduleBooking tzs st ws bid s).2

/-! ## Concrete fixtures used by the witnesses and counterexamples -/

/-- The empty store. -/
def emptyState : AppState :=
  { workspaces := [], services := [], availabilityRules := [], bookings := [],
    inventoryItems := [], contacts := [], formTemplates := [], formRequests := [],
    scheduledJobs := [], idempotencyKeys := [], automationEvents := [],
    alerts := [], nextId := 0 }

/-- A booking fixture in workspace `"w"`. -/
def mkBooking (bid : String) (startsAt endsAt : Instant) (status : BookingStatus) : Booking :=
  { id := bid, workspaceId := "w", contactId := "c1", serviceId := "s1",
    startsAt := startsAt, endsAt := endsAt, status := status, deletedAt := none }

/-! ## C2: the booking status state machine -/

/-- The transition table exactly as the spec words it:
`pending → {confirmed, cancelled, no_show}`,
`confirmed → {completed, cancelled, no_show}`, everything else forbidden. -/
def specAllowedTransition (fromStatus toStatus : BookingStatus) : Prop :=
  (fromStatus = .pending ∧
    (toStatus = .confirmed ∨ toStatus = .cancelled ∨ toStatus = .no_show)) ∨
  (fromStatus = .confirmed ∧
    (toStatus = .completed ∨ toStatus = .cancelled ∨ toStatus = .no_show))

/-- Fixture: a workspace in UTC. -/
def wsFixture : Workspace := { id := "w", name := "W", timezone := "UTC" }

/-- Fixture: a 30-minute service of workspace `"w"` with no inventory rules. -/
def svcFixture : Service :=
  { id := "s1", workspaceId := "w", name := "Svc", durationMin := 30,
    inventoryRules := [], bookingFormTemplateId := none, isActive := true }

/-- Fixture: a weekly Monday 09:00–17:00 rule for service `"s1"`. -/
def weeklyRuleFixture : AvailabilityRule :=
  { id := "r1", workspaceId := "w", serviceId := "s1", ruleType := some .weekly,
    weekday := some 1, date := none, startTime := some "09:00",
    endTime := some "17:00", bufferMin := some 0, slotIntervalMin := none,
    isClosedAllDay := none }

/-- Fixture: a weekly Monday 10:00–11:00 candidate, overlapping the stored
Monday 09:00–17:00 rule. -/
def weeklyCandFixture : NormalizedAvailabilityRuleInput :=
  { ruleType := .weekly, weekday := some 1, startTime := some "10:00",
    endTime := some "11:00", bufferMin := some 0 }

/-- Fixture state for the rule-conflict witness. -/
def stC5 : AppState :=
  { emptyState with services := [svcFixture], availabilityRules := [weeklyRuleFixture] }

/-- Total quantity the deduction loop removes from item `itemId`. -/
def rulesQty (rules : List ServiceInventoryRule) (itemId : String) : Int :=
  ((rules.filter fun r => r.itemId == itemId).map (fun r => r.quantity)).sum

/-- Fixture: a service whose only inventory rule references a missing item. -/
def svcGhost : Service :=
  { id := "s2", workspaceId := "w", name := "Svc2", durationMin := 30,
    inventoryRules := [{ itemId := "ghost", quantity := 5 }],
    bookingFormTemplateId := none, isActive := true }

/-- Fixture: a confirmed booking of the ghost-item service. -/
def bkC10 : Booking :=
  { id := "b1", workspaceId := "w", contactId := "c1", serviceId := "s2",
    startsAt := 0, endsAt := 10, status := .confirmed, deletedAt := none }

/-- Fixture state for the missing-item witness: no inventory items at all. -/
def stC10 : AppState :=
  { emptyState with services := [svcGhost], bookings := [bkC10] }

/-- Fixture: an inventory item with five on hand. -/
def itemC6 : InventoryItem :=
  { id := "i1", workspaceId := "w", name := "Gloves", unit := "box",
    quantityOnHand := 5, lowStockThreshold := 0, isActive := true }

/-- Fixture: a service consuming one unit of item `"i1"`. -/
def svcC6 : Service :=
  { id := "s3", workspaceId := "w", name := "Svc3", durationMin := 30,
    inventoryRules := [{ itemId := "i1", quantity := 1 }],
    bookingFormTemplateId := none, isActive := true }

/-- Fixture: a confirmed booking of that service. -/
def bkC6 : Booking :=
  { id := "b1", workspaceId := "w", contactId := "c1", serviceId := "s3",
    startsAt := 0, endsAt := 10, status := .confirmed, deletedAt := none }

/-- Fixture state for the inventory-completion witness. -/
def stC6 : AppState :=
  { emptyState with
    services := [svcC6], bookings := [bkC6], inventoryItems := [itemC6] }

/-- Fixture: an item already at or below its low-stock threshold (2 ≤ 10). -/
def itemC7 : InventoryItem :=
  { id := "i2", workspaceId := "w", name := "Masks", unit := "box",
    quantityOnHand := 2, lowStockThreshold := 10, isActive := true }

/-- Fixture: a service consuming one unit of item `"i2"`. -/
def svcC7 : Service :=
  { id := "s4", workspaceId := "w", name := "Svc4", durationMin := 30,
    inventoryRules := [{ itemId := "i2", quantity := 1 }],
    bookingFormTemplateId := none, isActive := true }

/-- Fixture: a confirmed booking of that service. -/
def bkC7 : Booking :=
  { id := "b1", workspaceId := "w", contactId := "c1", serviceId := "s4",
    startsAt := 0, endsAt := 10, status := .confirmed, deletedAt := none }

/-- Fixture: the low-stock alert from an earlier crossing of the threshold. -/
def priorAlertC7 : Alert :=
  { id := "a0", workspaceId := "w", type := "inventory.low_stock",
    severity := .warning, message := lowStockMessage "Masks" 2 "box", link := none }

/-- Fixture: the low-stock automation event from that earlier crossing. -/
def priorEventC7 : AutomationEvent :=
  { id := "e0", workspaceId := "w", eventType := "inventory.low_stock",
    entityType := "inventory_item", entityId := "i2", payload := .lowStock 2 10 }

/-- Fixture state: the item is already at or below its threshold, and the
previous crossing's alert and event are on record. -/
def stC7 : AppState :=
  { emptyState with
    services := [svcC7], bookings := [bkC7], inventoryItems := [itemC7],
    automationEvents := [priorEventC7], alerts := [priorAlertC7] }

/-- A degenerate timezone table, for closed-form instantiations. -/
def tzsTrivial : TimeZones := fun _ =>
  { atTime := fun _ _ => 0, dateKeyOf := fun _ => "", weekdayOf := fun _ => 0 }

/-- The `date_override` window a single rule contributes to
`resolveAvailabilityForDate` for `dateKey` (`none` when the rule is not a
matching override of this service and date, or its window normalisation
fails). -/
def overrideWindowOf (tz : TimeZoneOps) (workspaceId serviceId dateKey : String)
    (serviceDurationMin : Int) (rule : AvailabilityRule) : Option AvailabilityWindow :=
  if rule.workspaceId == workspaceId && rule.serviceId == serviceId &&
      resolveRuleType rule == .date_override && rule.date == some dateKey then
    toAvailabilityWindow tz dateKey rule
      (serviceDurationMin + max 0 (rule.bufferMin.getD 0))
  else none

/-- The weekly window a single rule contributes to
`resolveAvailabilityForDate` for a date falling on `weekday`. -/
def weeklyWindowOf (tz : TimeZoneOps) (workspaceId serviceId dateKey : String)
    (weekday serviceDurationMin : Int) (rule : AvailabilityRule) :
    Option AvailabilityWindow :=
  if rule.workspaceId == workspaceId && rule.serviceId == serviceId &&
      resolveRuleType rule == .weekly && rule.weekday == some weekday then
    toAvailabilityWindow tz dateKey rule
      (serviceDurationMin + max 0 (rule.bufferMin.getD 0))
  else none

/-- A concrete timezone whose instants are milliseconds after the date's
midnight: `atTime` reads the `HH:mm` string. -/
def tzC4 : TimeZoneOps :=
  { atTime := fun _ t => (hhmmToMinutes t).getD 0 * 60000,
    dateKeyOf := fun _ => "2024-01-01",
    weekdayOf := fun _ => 1 }

/-- A weekly Monday 09:00–17:00 rule. -/
def weeklyRuleC4 : AvailabilityRule :=
  { id := "r1", workspaceId := "w", serviceId := "s1", ruleType := some .weekly,
    weekday := some 1, date := none, startTime := some "09:00",
    endTime := some "17:00", bufferMin := none, slotIntervalMin := none,
    isClosedAllDay := none }

/-- A date-override 09:00–12:00 rule for the Monday `2024-01-01`. -/
def overrideRuleC4 : AvailabilityRule :=
  { id := "r2", workspaceId := "w", serviceId := "s1",
    ruleType := some .date_override, weekday := none, date := some "2024-01-01",
    startTime := some "09:00", endTime := some "12:00", bufferMin := none,
    slotIntervalMin := none, isClosedAllDay := none }

def rulesC4 : List AvailabilityRule := [weeklyRuleC4, overrideRuleC4]

def wsC8 : Workspace := { id := "w", name := "W", timezone := "" }

def svcC8 : Service :=
  { id := "s1", workspaceId := "w", name := "Cut", durationMin := 30,
    inventoryRules := [], bookingFormTemplateId := none, isActive := true }

def bodyC8 : BookingBody :=
  { serviceId := some "s1", startsAt := some 32400000,
    fields := { firstName := "Ann", lastName := "Lee", email := none,
                phone := none, notes := none } }

def stC8 : AppState :=
  { emptyState with
      workspaces := [wsC8]
      services := [svcC8]
      availabilityRules := rulesC4 }

def tzsC8 : TimeZones := fun _ => tzC4

/-- The snapshot the first submission of `bodyC8` stores and returns. -/
def snapC8 : Snapshot :=
  { booking := { id := "id-1", workspaceId := "w", contactId := "id-0",
                 serviceId := "s1", startsAt := 32400000, endsAt := 34200000,
                 status := .pending, deletedAt := none },
    formRequest := none }

def jobC9a : ScheduledJob :=
  { id := "j1", workspaceId := "w", jobType := "noop", runAt := 5,
    status := .queued, priority := .high, payload := {}, attempts := 0,
    lastError := none, lockedAt := none, lockOwner := none }

def jobC9b : ScheduledJob :=
  { id := "j2", workspaceId := "w", jobType := "noop", runAt := 1,
    status := .queued, priority := .normal, payload := {}, attempts := 0,
    lastError := none, lockedAt := none, lockOwner := none }

def stC9 : AppState := { emptyState with scheduledJobs := [jobC9b, jobC9a] }

/-- The overlap guard as a proposition, element by element. -/
lemma isBookingOverlapping_eq_true_iff
    (bookings : List Booking) (ws : String) (s e : Instant) (ex : Option String) :
    isBookingOverlapping bookings ws s e ex = true ↔
      ∃ b ∈ bookings, b.workspaceId = ws ∧
        (∀ eid, ex = some eid → eid ≠ "" → b.id ≠ eid) ∧
        b.status ≠ .cancelled ∧ b.status ≠ .no_show ∧
        s < b.endsAt ∧ b.startsAt < e := by
  simp only [isBookingOverlapping, List.any_eq_true]
  refine exists_congr fun b => and_congr_right fun _ => ?_
  cases ex with
  | none =>
    simp only [Bool.and_eq_true, beq_iff_eq, Bool.not_eq_true', Bool.or_eq_false_iff,
      beq_eq_false_iff_ne, decide_eq_true_eq, Bool.not_false]
    tauto
  | some eid =>
    simp only [Bool.and_eq_true, beq_iff_eq, Bool.not_eq_true', Bool.or_eq_false_iff,
      beq_eq_false_iff_ne, decide_eq_true_eq, Bool.and_eq_false_iff,
      Bool.not_eq_false', Option.some.injEq, forall_eq']
    tauto

/-- C3: the booking conflict guard returns `true` iff some booking of the
tenant with status not in {cancelled, no_show} and id different from the
(non-empty) excluded id satisfies `startsAt < otherEnd ∧ otherStart < endsAt`;
and whenever every active same-tenant booking merely touches or is disjoint
from `[s, e)` (`otherEnd ≤ s ∨ e ≤ otherStart`), the guard returns `false`,
so intervals touching at an endpoint do not conflict. -/
theorem C3_isBookingOverlapping_spec
    (bookings : List Booking) (ws : String) (s e : Instant) (ex : Option String) :
    (isBookingOverlapping bookings ws s e ex = true ↔
      ∃ b ∈ bookings, b.workspaceId = ws ∧
        (∀ eid, ex = some eid → eid ≠ "" → b.id ≠ eid) ∧
        b.status ≠ .cancelled ∧ b.status ≠ .no_show ∧
        s < b.endsAt ∧ b.startsAt < e) ∧
    ((∀ b ∈ bookings, b.workspaceId = ws → b.status ≠ .cancelled →
        b.status ≠ .no_show → b.endsAt ≤ s ∨ e ≤ b.startsAt) →
      isBookingOverlapping bookings ws s e ex = false) := by
  refine ⟨isBookingOverlapping_eq_true_iff bookings ws s e ex, fun h => ?_⟩
  by_contra hcon
  rw [Bool.not_eq_false, isBookingOverlapping_eq_true_iff] at hcon
  obtain ⟨b, hb, hws, -, hc, hn, h1, h2⟩ := hcon
  rcases h b hb hws hc hn with h' | h'
  · exact absurd h1 (not_lt.mpr h')
  · exact absurd h2 (not_lt.mpr h')

/-- Witness for C3 at a concrete input: a single confirmed booking on
`[0, 10)` does not conflict with the touching interval `[10, 20)`. -/
theorem C3_witness :
    isBookingOverlapping
      [{ id := "b1", workspaceId := "w", contactId := "c", serviceId := "s",
         startsAt := 0, endsAt := 10, status := .confirmed, deletedAt := none }]
      "w" 10 20 none = false :=
  (C3_isBookingOverlapping_spec _ "w" 10 20 none).2 (by decide)

lemma mem_updateFirstBy {p : α → Bool} {f : α → α} :
    ∀ {l : List α} {x : α}, x ∈ updateFirstBy p f l →
      x ∈ l ∨ ∃ b, l.find? p = some b ∧ x = f b := by
  intro l
  induction l with
  | nil => intro x hx; simp [updateFirstBy] at hx
  | cons a as ih =>
    intro x hx
    by_cases ha : p a
    · rw [updateFirstBy, if_pos ha] at hx
      rcases List.mem_cons.mp hx with rfl | hx'
      · exact Or.inr ⟨a, by simp [List.find?_cons, ha], rfl⟩
      · exact Or.inl (List.mem_cons_of_mem _ hx')
    · rw [updateFirstBy, if_neg ha] at hx
      rcases List.mem_cons.mp hx with rfl | hx'
      · exact Or.inl (List.mem_cons_self _ _)
      · rcases ih hx' with h | ⟨b, hb, rfl⟩
        · exact Or.inl (List.mem_cons_of_mem _ h)
        · exact Or.inr ⟨b, by simp [List.find?_cons, ha, hb], rfl⟩

lemma find?_updateFirstBy_self {p : α → Bool} {f : α → α}
    (hf : ∀ x, p x = true → p (f x) = true) (l : List α) :
    (updateFirstBy p f l).find? p = (l.find? p).map f := by
  induction l with
  | nil => simp [updateFirstBy]
  | cons a as ih =>
    by_cases ha : p a
    · simp [updateFirstBy, ha, List.find?_cons, hf a ha]
    · simp [updateFirstBy, ha, List.find?_cons, ih]

lemma find?_updateFirstBy_other {p q : α → Bool} {f : α → α}
    (hpq : ∀ x, p x = true → q x = false) (hq : ∀ x, q (f x) = q x) (l : List α) :
    (updateFirstBy p f l).find? q = l.find? q := by
  induction l with
  | nil => simp [updateFirstBy]
  | cons a as ih =>
    by_cases ha : p a
    · simp [updateFirstBy, ha, List.find?_cons, hq a, hpq a ha]
    · by_cases hqa : q a
      · simp [updateFirstBy, ha, List.find?_cons, hqa]
      · simp [updateFirstBy, ha, List.find?_cons, hqa, ih]

lemma updateFirstBy_eq_of_find?_none {p : α → Bool} {f : α → α} {l : List α}
    (h : l.find? p = none) : updateFirstBy p f l = l := by
  induction l with
  | nil => rfl
  | cons a as ih =>
    rw [List.find?_cons] at h
    by_cases ha : p a
    · simp [ha] at h
    · simp only [updateFirstBy, if_neg ha]
      simp only [ha, Bool.false_eq_true, if_neg] at h
      rw [ih h]

/-! ## Projection lemmas: which operations leave which collections unchanged -/

section ProjectionLemmas

variable (st : AppState)

@[simp] lemma emitEvent_workspaces (a b c d : String) (p : EventPayload) :
    (emitEvent st a b c d p).workspaces = st.workspaces := by
  unfold emitEvent; split <;> rfl

@[simp] lemma emitEvent_services (a b c d : String) (p : EventPayload) :
    (emitEvent st a b c d p).services = st.services := by
  unfold emitEvent; split <;> rfl

@[simp] lemma emitEvent_availabilityRules (a b c d : String) (p : EventPayload) :
    (emitEvent st a b c d p).availabilityRules = st.availabilityRules := by
  unfold emitEvent; split <;> rfl

@[simp] lemma emitEvent_bookings (a b c d : String) (p : EventPayload) :
    (emitEvent st a b c d p).bookings = st.bookings := by
  unfold emitEvent; split <;> rfl

@[simp] lemma emitEvent_inventoryItems (a b c d : String) (p : EventPayload) :
    (emitEvent st a b c d p).inventoryItems = st.inventoryItems := by
  unfold emitEvent; split <;> rfl

@[simp] lemma emitEvent_contacts (a b c d : String) (p : EventPayload) :
    (emitEvent st a b c d p).contacts = st.contacts := by
  unfold emitEvent; split <;> rfl

@[simp] lemma emitEvent_formTemplates (a b c d : String) (p : EventPayload) :
    (emitEvent st a b c d p).formTemplates = st.formTemplates := by
  unfold emitEvent; split <;> rfl

@[simp] lemma emitEvent_formRequests (a b c d : String) (p : EventPayload) :
    (emitEvent st a b c d p).formRequests = st.formRequests := by
  unfold emitEvent; split <;> rfl

@[simp] lemma emitEvent_scheduledJobs (a b c d : String) (p : EventPayload) :
    (emitEvent st a b c d p).scheduledJobs = st.scheduledJobs := by
  unfold emitEvent; split <;> rfl

@[simp] lemma emitEvent_idempotencyKeys (a b c d : String) (p : EventPayload) :
    (emitEvent st a b c d p).idempotencyKeys = st.idempotencyKeys := by
  unfold emitEvent; split <;> rfl

@[simp] lemma emitEvent_alerts (a b c d : String) (p : EventPayload) :
    (emitEvent st a b c d p).alerts = st.alerts := by
  unfold emitEvent; split <;> rfl

@[simp] lemma createAlert_workspaces (a b : String) (sev : AlertSeverity) (m : String)
    (l : Option String) : (createAlert st a b sev m l).workspaces = st.workspaces := rfl

@[simp] lemma createAlert_services (a b : String) (sev : AlertSeverity) (m : String)
    (l : Option String) : (createAlert st a b sev m l).services = st.services := rfl

@[simp] lemma createAlert_availabilityRules (a b : String) (sev : AlertSeverity) (m : String)
    (l : Option String) :
    (createAlert st a b sev m l).availabilityRules = st.availabilityRules := rfl

@[simp] lemma createAlert_bookings (a b : String) (sev : AlertSeverity) (m : String)
    (l : Option String) : (createAlert st a b sev m l).bookings = st.bookings := rfl

@[simp] lemma createAlert_inventoryItems (a b : String) (sev : AlertSeverity) (m : String)
    (l : Option String) :
    (createAlert st a b sev m l).inventoryItems = st.inventoryItems := rfl

@[simp] lemma createAlert_contacts (a b : String) (sev : AlertSeverity) (m : String)
    (l : Option String) : (createAlert st a b sev m l).contacts = st.contacts := rfl

@[simp] lemma createAlert_formRequests (a b : String) (sev : AlertSeverity) (m : String)
    (l : Option String) : (createAlert st a b sev m l).formRequests = st.formRequests := rfl

@[simp] lemma createAlert_formTemplates (a b : String) (sev : AlertSeverity) (m : String)
    (l : Option String) : (createAlert st a b sev m l).formTemplates = st.formTemplates := rfl

@[simp] lemma createAlert_scheduledJobs (a b : String) (sev : AlertSeverity) (m : String)
    (l : Option String) :
    (createAlert st a b sev m l).scheduledJobs = st.scheduledJobs := rfl

@[simp] lemma createAlert_idempotencyKeys (a b : String) (sev : AlertSeverity) (m : String)
    (l : Option String) :
    (createAlert st a b sev m l).idempotencyKeys = st.idempotencyKeys := rfl

@[simp] lemma createAlert_automationEvents (a b : String) (sev : AlertSeverity) (m : String)
    (l : Option String) :
    (createAlert st a b sev m l).automationEvents = st.automationEvents := rfl

@[simp] lemma createAlert_alerts (a b : String) (sev : AlertSeverity) (m : String)
    (l : Option String) :
    (createAlert st a b sev m l).alerts = st.alerts ++
      [{ id := freshId st.nextId, workspaceId := a, type := b, severity := sev,
         message := m, link := l }] := rfl

@[simp] lemma enqueueJob_workspaces (a b : String) (r : Instant) (p : JobPayload)
    (pr : Option JobPriority) : (enqueueJob st a b r p pr).workspaces = st.workspaces := rfl

@[simp] lemma enqueueJob_services (a b : String) (r : Instant) (p : JobPayload)
    (pr : Option JobPriority) : (enqueueJob st a b r p pr).services = st.services := rfl

@[simp] lemma enqueueJob_availabilityRules (a b : String) (r : Instant) (p : JobPayload)
    (pr : Option JobPriority) :
    (enqueueJob st a b r p pr).availabilityRules = st.availabilityRules := rfl

@[simp] lemma enqueueJob_bookings (a b : String) (r : Instant) (p : JobPayload)
    (pr : Option JobPriority) : (enqueueJob st a b r p pr).bookings = st.bookings := rfl

@[simp] lemma enqueueJob_inventoryItems (a b : String) (r : Instant) (p : JobPayload)
    (pr : Option JobPriority) :
    (enqueueJob st a b r p pr).inventoryItems = st.inventoryItems := rfl

@[simp] lemma enqueueJob_contacts (a b : String) (r : Instant) (p : JobPayload)
    (pr : Option JobPriority) : (enqueueJob st a b r p pr).contacts = st.contacts := rfl

@[simp] lemma enqueueJob_formRequests (a b : String) (r : Instant) (p : JobPayload)
    (pr : Option JobPriority) : (enqueueJob st a b r p pr).formRequests = st.formRequests := rfl

@[simp] lemma enqueueJob_formTemplates (a b : String) (r : Instant) (p : JobPayload)
    (pr : Option JobPriority) :
    (enqueueJob st a b r p pr).formTemplates = st.formTemplates := rfl

@[simp] lemma enqueueJob_idempotencyKeys (a b : String) (r : Instant) (p : JobPayload)
    (pr : Option JobPriority) :
    (enqueueJob st a b r p pr).idempotencyKeys = st.idempotencyKeys := rfl

@[simp] lemma enqueueJob_alerts (a b : String) (r : Instant) (p : JobPayload)
    (pr : Option JobPriority) : (enqueueJob st a b r p pr).alerts = st.alerts := rfl

@[simp] lemma saveIdempotency_workspaces (n : Instant) (a b c d : String)
    (h : BookingBody) (s : Snapshot) :
    (saveIdempotency st n a b c d h s).workspaces = st.workspaces := rfl

@[simp] lemma saveIdempotency_services (n : Instant) (a b c d : String)
    (h : BookingBody) (s : Snapshot) :
    (saveIdempotency st n a b c d h s).services = st.services := rfl

@[simp] lemma saveIdempotency_availabilityRules (n : Instant) (a b c d : String)
    (h : BookingBody) (s : Snapshot) :
    (saveIdempotency st n a b c d h s).availabilityRules = st.availabilityRules := rfl

@[simp] lemma saveIdempotency_bookings (n : Instant) (a b c d : String)
    (h : BookingBody) (s : Snapshot) :
    (saveIdempotency st n a b c d h s).bookings = st.bookings := rfl

@[simp] lemma saveIdempotency_inventoryItems (n : Instant) (a b c d : String)
    (h : BookingBody) (s : Snapshot) :
    (saveIdempotency st n a b c d h s).inventoryItems = st.inventoryItems := rfl

@[simp] lemma saveIdempotency_contacts (n : Instant) (a b c d : String)
    (h : BookingBody) (s : Snapshot) :
    (saveIdempotency st n a b c d h s).contacts = st.contacts := rfl

@[simp] lemma saveIdempotency_scheduledJobs (n : Instant) (a b c d : String)
    (h : BookingBody) (s : Snapshot) :
    (saveIdempotency st n a b c d h s).scheduledJobs = st.scheduledJobs := rfl

@[simp] lemma saveIdempotency_idempotencyKeys (n : Instant) (a b c d : String)
    (h : BookingBody) (s : Snapshot) :
    (saveIdempotency st n a b c d h s).idempotencyKeys = st.idempotencyKeys ++
      [{ id := freshId st.nextId, workspaceId := a, key := b, method := c, path := d,
         requestHash := h, responseSnapshot := s, expiresAt := addDays n 1 }] := rfl

@[simp] lemma cleanupExpiredRecords_workspaces (n : Instant) :
    (cleanupExpiredRecords st n).workspaces = st.workspaces := rfl

@[simp] lemma cleanupExpiredRecords_bookings (n : Instant) :
    (cleanupExpiredRecords st n).bookings = st.bookings := rfl

@[simp] lemma cleanupExpiredRecords_scheduledJobs (n : Instant) :
    (cleanupExpiredRecords st n).scheduledJobs = st.scheduledJobs := rfl

@[simp] lemma createFormRequest_workspaces (n : Instant) (a b c d : String) (due : Instant) :
    (createFormRequest st n a b c d due).2.workspaces = st.workspaces := rfl

@[simp] lemma createFormRequest_services (n : Instant) (a b c d : String) (due : Instant) :
    (createFormRequest st n a b c d due).2.services = st.services := rfl

@[simp] lemma createFormRequest_availabilityRules (n : Instant) (a b c d : String)
    (due : Instant) :
    (createFormRequest st n a b c d due).2.availabilityRules = st.availabilityRules := rfl

@[simp] lemma createFormRequest_bookings (n : Instant) (a b c d : String) (due : Instant) :
    (createFormRequest st n a b c d due).2.bookings = st.bookings := rfl

@[simp] lemma createFormRequest_inventoryItems (n : Instant) (a b c d : String)
    (due : Instant) :
    (createFormRequest st n a b c d due).2.inventoryItems = st.inventoryItems := rfl

@[simp] lemma createFormRequest_contacts (n : Instant) (a b c d : String) (due : Instant) :
    (createFormRequest st n a b c d due).2.contacts = st.contacts := rfl

@[simp] lemma createFormRequest_idempotencyKeys (n : Instant) (a b c d : String)
    (due : Instant) :
    (createFormRequest st n a b c d due).2.idempotencyKeys = st.idempotencyKeys := rfl

@[simp] lemma allocId_workspaces : (allocId st).2.workspaces = st.workspaces := rfl

@[simp] lemma allocId_services : (allocId st).2.services = st.services := rfl

@[simp] lemma allocId_availabilityRules :
    (allocId st).2.availabilityRules = st.availabilityRules := rfl

@[simp] lemma allocId_bookings : (allocId st).2.bookings = st.bookings := rfl

@[simp] lemma allocId_inventoryItems :
    (allocId st).2.inventoryItems = st.inventoryItems := rfl

@[simp] lemma allocId_scheduledJobs :
    (allocId st).2.scheduledJobs = st.scheduledJobs := rfl

@[simp] lemma allocId_formTemplates :
    (allocId st).2.formTemplates = st.formTemplates := rfl

@[simp] lemma allocId_formRequests :
    (allocId st).2.formRequests = st.formRequests := rfl

@[simp] lemma allocId_contacts : (allocId st).2.contacts = st.contacts := rfl

@[simp] lemma allocId_idempotencyKeys :
    (allocId st).2.idempotencyKeys = st.idempotencyKeys := rfl

@[simp] lemma allocId_automationEvents :
    (allocId st).2.automationEvents = st.automationEvents := rfl

@[simp] lemma allocId_alerts : (allocId st).2.alerts = st.alerts := rfl

@[simp] lemma findOrCreateContact_workspaces (a b c : String) (e p : Option String) :
    (findOrCreateContact st a b c e p).2.workspaces = st.workspaces := by
  simp only [findOrCreateContact, allocId]; split <;> rfl

@[simp] lemma findOrCreateContact_services (a b c : String) (e p : Option String) :
    (findOrCreateContact st a b c e p).2.services = st.services := by
  simp only [findOrCreateContact, allocId]; split <;> rfl

@[simp] lemma findOrCreateContact_availabilityRules (a b c : String) (e p : Option String) :
    (findOrCreateContact st a b c e p).2.availabilityRules = st.availabilityRules := by
  simp only [findOrCreateContact, allocId]; split <;> rfl

@[simp] lemma findOrCreateContact_bookings (a b c : String) (e p : Option String) :
    (findOrCreateContact st a b c e p).2.bookings = st.bookings := by
  simp only [findOrCreateContact, allocId]; split <;> rfl

@[simp] lemma findOrCreateContact_inventoryItems (a b c : String) (e p : Option String) :
    (findOrCreateContact st a b c e p).2.inventoryItems = st.inventoryItems := by
  simp only [findOrCreateContact, allocId]; split <;> rfl

@[simp] lemma findOrCreateContact_scheduledJobs (a b c : String) (e p : Option String) :
    (findOrCreateContact st a b c e p).2.scheduledJobs = st.scheduledJobs := by
  simp only [findOrCreateContact, allocId]; split <;> rfl

@[simp] lemma findOrCreateContact_formTemplates (a b c : String) (e p : Option String) :
    (findOrCreateContact st a b c e p).2.formTemplates = st.formTemplates := by
  simp only [findOrCreateContact, allocId]; split <;> rfl

@[simp] lemma findOrCreateContact_formRequests (a b c : String) (e p : Option String) :
    (findOrCreateContact st a b c e p).2.formRequests = st.formRequests := by
  simp only [findOrCreateContact, allocId]; split <;> rfl

@[simp] lemma findOrCreateContact_idempotencyKeys (a b c : String) (e p : Option String) :
    (findOrCreateContact st a b c e p).2.idempotencyKeys = st.idempotencyKeys := by
  simp only [findOrCreateContact, allocId]; split <;> rfl

@[simp] lemma applyInventoryRule_workspaces (ws : String) (r : ServiceInventoryRule) :
    (applyInventoryRule st ws r).workspaces = st.workspaces := by
  simp only [applyInventoryRule]; split
  · rfl
  · split <;> simp

@[simp] lemma applyInventoryRule_services (ws : String) (r : ServiceInventoryRule) :
    (applyInventoryRule st ws r).services = st.services := by
  simp only [applyInventoryRule]; split
  · rfl
  · split <;> simp

@[simp] lemma applyInventoryRule_availabilityRules (ws : String) (r : ServiceInventoryRule) :
    (applyInventoryRule st ws r).availabilityRules = st.availabilityRules := by
  simp only [applyInventoryRule]; split
  · rfl
  · split <;> simp

@[simp] lemma applyInventoryRule_bookings (ws : String) (r : ServiceInventoryRule) :
    (applyInventoryRule st ws r).bookings = st.bookings := by
  simp only [applyInventoryRule]; split
  · rfl
  · split <;> simp

@[simp] lemma applyInventoryRule_contacts (ws : String) (r : ServiceInventoryRule) :
    (applyInventoryRule st ws r).contacts = st.contacts := by
  simp only [applyInventoryRule]; split
  · rfl
  · split <;> simp

@[simp] lemma applyInventoryRule_scheduledJobs (ws : String) (r : ServiceInventoryRule) :
    (applyInventoryRule st ws r).scheduledJobs = st.scheduledJobs := by
  simp only [applyInventoryRule]; split
  · rfl
  · split <;> simp

@[simp] lemma applyInventoryRule_idempotencyKeys (ws : String) (r : ServiceInventoryRule) :
    (applyInventoryRule st ws r).idempotencyKeys = st.idempotencyKeys := by
  simp only [applyInventoryRule]; split
  · rfl
  · split <;> simp

end ProjectionLemmas

lemma applyInventoryRules_bookings (st : AppState) (ws : String)
    (rules : List ServiceInventoryRule) :
    (applyInventoryRules st ws rules).bookings = st.bookings := by
  induction rules generalizing st with
  | nil => rfl
  | cons r rs ih =>
    rw [applyInventoryRules, List.foldl_cons]
    calc (List.foldl (fun acc rule => applyInventoryRule acc ws rule)
            (applyInventoryRule st ws r) rs).bookings
        = (applyInventoryRule st ws r).bookings := ih _
      _ = st.bookings := applyInventoryRule_bookings _ _ _

lemma applyInventoryOnBookingCompleted_bookings (st : AppState) (ws bid : String) :
    (applyInventoryOnBookingCompleted st ws bid).2.bookings = st.bookings := by
  unfold applyInventoryOnBookingCompleted
  split
  · rfl
  · split
    · rfl
    · split
      · rfl
      · exact applyInventoryRules_bookings _ _ _

lemma mem_allowedTransitions_iff (fromStatus toStatus : BookingStatus) :
    toStatus ∈ allowedTransitions fromStatus ↔ specAllowedTransition fromStatus toStatus := by
  cases fromStatus <;> cases toStatus <;> simp [allowedTransitions, specAllowedTransition]

/-- C2: the transition-status operation permits exactly the spec's table — for
a live booking `b`, a requested target outside the table fails with the
InvalidTransition error and leaves the whole state (hence the booking)
unchanged; in particular every transition out of `completed`, `no_show` or
`cancelled` fails that way; and a target inside the table never produces an
InvalidTransition error. -/
theorem C2_transition_state_machine
    (st : AppState) (ws bid : String) (target : BookingStatus) (b : Booking)
    (hfind : st.bookings.find? (liveBookingPred ws bid) = some b) :
    (¬ specAllowedTransition b.status target →
      transitionBookingStatus st ws bid target =
        (.error (.invalidTransition b.status target), st)) ∧
    ((b.status = .completed ∨ b.status = .no_show ∨ b.status = .cancelled) →
      transitionBookingStatus st ws bid target =
        (.error (.invalidTransition b.status target), st)) ∧
    (specAllowedTransition b.status target →
      ∀ s t, (transitionBookingStatus st ws bid target).1 ≠
        .error (.invalidTransition s t)) := by
  have hnotin : ¬ specAllowedTransition b.status target →
      transitionBookingStatus st ws bid target =
        (.error (.invalidTransition b.status target), st) := by
    intro hnot
    rw [← mem_allowedTransitions_iff] at hnot
    simp only [transitionBookingStatus, hfind]
    rw [if_pos hnot]
  refine ⟨hnotin, fun hterm => ?_, fun hin s t => ?_⟩
  · apply hnotin
    rw [← mem_allowedTransitions_iff]
    rcases hterm with h | h | h <;> simp [h, allowedTransitions]
  · rw [← mem_allowedTransitions_iff] at hin
    simp only [transitionBookingStatus, hfind]
    rw [if_neg (by simpa using hin)]
    split
    · simp
    · simp

/-- Witness for C2 at a concrete input: a completed booking cannot move back
to pending, and the state is untouched. -/
theorem C2_witness :
    transitionBookingStatus
      { emptyState with bookings := [mkBooking "b1" 0 10 .completed] }
      "w" "b1" .pending =
      (.error (.invalidTransition .completed .pending),
        { emptyState with bookings := [mkBooking "b1" 0 10 .completed] }) :=
  (C2_transition_state_machine _ "w" "b1" .pending (mkBooking "b1" 0 10 .completed)
    (by decide)).2.1 (by decide)

/-! ## C5: weekly availability-rule conflicts -/

lemma hasOverlappingRule_of_weekly_witness
    (rules : List AvailabilityRule) (ws sid : String)
    (cand : NormalizedAvailabilityRuleInput) (r : AvailabilityRule) (w : Int)
    (ex : Option String)
    (hr : r ∈ rules) (hrw : r.workspaceId = ws) (hrs : r.serviceId = sid)
    (hrtype : resolveRuleType r = .weekly) (hcandtype : cand.ruleType = .weekly)
    (hrwd : r.weekday = some w) (hcwd : cand.weekday = some w)
    (hexcl : ∀ eid, ex = some eid → eid ≠ "" → r.id ≠ eid)
    (hov : overlap (dateAtTime2000 (cand.startTime.getD "00:00"))
        (dateAtTime2000 (cand.endTime.getD "00:00"))
        (dateAtTime2000 (r.startTime.getD "00:00"))
        (dateAtTime2000 (r.endTime.getD "00:00")) = true) :
    hasOverlappingRule rules ws sid cand ex = true := by
  rw [hasOverlappingRule, List.any_eq_true]
  refine ⟨r, hr, ?_⟩
  simp only []
  split
  next h =>
    exfalso
    simp only [hrw, hrs, beq_self_eq_true, Bool.not_true, Bool.false_or, Bool.or_false] at h
    rcases ex with _ | eid
    · simp at h
    · by_cases heid : eid = ""
      · simp [heid] at h
      · simp [heid] at h
        exact hexcl eid rfl heid h
  next h =>
    have hnorm : normalizeAvailabilityRule r =
        { r with
          ruleType := some RuleType.weekly,
          bufferMin := some (r.bufferMin.getD 0) } := by
      simp [normalizeAvailabilityRule, hrtype]
    rw [hnorm]
    simp only [hcandtype]
    simp [hrwd, hcwd, hov]

/-- C5: for a pair of valid weekly rules on the same service with matching
weekday and overlapping time-of-day intervals, creating the second rule (or
updating a different stored rule into it) fails with the Conflict error and
returns the store unchanged. -/
theorem C5_weekly_rule_conflict
    (st : AppState) (ws sid : String) (svc : Service)
    (cand : NormalizedAvailabilityRuleInput) (r : AvailabilityRule) (w : Int)
    (hsvc : st.services.find? (fun item =>
      item.id == sid && item.workspaceId == ws) = some svc)
    (hr : r ∈ st.availabilityRules)
    (hrw : r.workspaceId = ws) (hrs : r.serviceId = sid)
    (hrtype : resolveRuleType r = .weekly) (hcandtype : cand.ruleType = .weekly)
    (hrwd : r.weekday = some w) (hcwd : cand.weekday = some w)
    (_hvalid : (hhmmToMinutes (r.startTime.getD "00:00")).isSome ∧
      (hhmmToMinutes (r.endTime.getD "00:00")).isSome ∧
      (hhmmToMinutes (cand.startTime.getD "00:00")).isSome ∧
      (hhmmToMinutes (cand.endTime.getD "00:00")).isSome)
    (hov : overlap (dateAtTime2000 (cand.startTime.getD "00:00"))
        (dateAtTime2000 (cand.endTime.getD "00:00"))
        (dateAtTime2000 (r.startTime.getD "00:00"))
        (dateAtTime2000 (r.endTime.getD "00:00")) = true) :
    postAvailabilityRule st ws sid cand =
      (.error (.conflict "Overlapping availability rule exists"), st) ∧
    ∀ r2, st.availabilityRules.find? (fun item =>
        item.id == r2.id && item.workspaceId == ws) = some r2 →
      r2.serviceId = sid → r2.id ≠ r.id →
      patchAvailabilityRule st ws r2.id cand =
        (.error (.conflict "Overlapping availability rule exists"), st) := by
  constructor
  · simp only [postAvailabilityRule, hsvc]
    rw [if_pos (hasOverlappingRule_of_weekly_witness _ ws sid cand r w none hr hrw hrs
      hrtype hcandtype hrwd hcwd (by rintro eid ⟨⟩) hov)]
  · intro r2 hfind2 hr2s hne
    simp only [patchAvailabilityRule, hfind2]
    have hexcl2 : ∀ eid, (some r2.id : Option String) = some eid → eid ≠ "" → r.id ≠ eid := by
      intro eid heq _
      have h1 : eid = r2.id := (Option.some.inj heq).symm
      rw [h1]
      exact fun hc => hne hc.symm
    have hover := hasOverlappingRule_of_weekly_witness st.availabilityRules ws sid cand r w
      (some r2.id) hr hrw hrs hrtype hcandtype hrwd hcwd hexcl2 hov
    rw [hr2s]
    rw [if_pos hover]

/-- Witness for C5 at a concrete input: creating a Monday 10:00–11:00 weekly
rule next to the stored Monday 09:00–17:00 rule fails with the Conflict error
and leaves the store unchanged. -/
theorem C5_witness :
    postAvailabilityRule stC5 "w" "s1" weeklyCandFixture =
      (.error (.conflict "Overlapping availability rule exists"), stC5) :=
  (C5_weekly_rule_conflict stC5 "w" "s1" svcFixture weeklyCandFixture
    weeklyRuleFixture 1 (by decide) (by decide) (by decide) (by decide)
    (by decide) (by decide) (by decide) (by decide) (by decide) (by decide)).1

/-! ## Inventory-consumption lemmas (C6, C7, C10) -/

lemma checkInventoryRules_eq_none_iff (items : List InventoryItem) (ws : String)
    (rules : List ServiceInventoryRule) :
    checkInventoryRules items ws rules = none ↔
      ∀ r ∈ rules, ∀ i, findInventoryItem items ws r.itemId = some i →
        r.quantity ≤ i.quantityOnHand := by
  induction rules with
  | nil => simp [checkInventoryRules]
  | cons r rs ih =>
    cases hfind : findInventoryItem items ws r.itemId with
    | none =>
      simp only [checkInventoryRules, hfind]
      rw [ih]
      constructor
      · intro h x hx i hi
        rcases List.mem_cons.mp hx with rfl | hx2
        · rw [hfind] at hi; cases hi
        · exact h x hx2 i hi
      · intro h x hx i hi
        exact h x (List.mem_cons_of_mem _ hx) i hi
    | some item =>
      simp only [checkInventoryRules, hfind]
      by_cases hlt : item.quantityOnHand < r.quantity
      · rw [if_pos hlt]
        constructor
        · intro h; cases h
        · intro h
          exact absurd (h r (List.mem_cons_self _ _) item hfind) (not_le.mpr hlt)
      · rw [if_neg hlt, ih]
        constructor
        · intro h x hx i hi
          rcases List.mem_cons.mp hx with rfl | hx2
          · rw [hfind] at hi
            cases hi
            exact not_lt.mp hlt
          · exact h x hx2 i hi
        · intro h x hx i hi
          exact h x (List.mem_cons_of_mem _ hx) i hi

lemma findInventoryItem_updateFirstBy_deduct (items : List InventoryItem)
    (ws itemId : String) (q : Int) (ws2 id2 : String) :
    findInventoryItem
      (updateFirstBy (fun i => i.workspaceId == ws && i.id == itemId)
        (fun i => { i with quantityOnHand := i.quantityOnHand - q }) items) ws2 id2 =
      if ws2 = ws ∧ id2 = itemId then
        (findInventoryItem items ws2 id2).map
          (fun i => { i with quantityOnHand := i.quantityOnHand - q })
      else findInventoryItem items ws2 id2 := by
  by_cases hcase : ws2 = ws ∧ id2 = itemId
  · obtain ⟨rfl, rfl⟩ := hcase
    rw [if_pos (And.intro rfl rfl)]
    exact find?_updateFirstBy_self (fun x hx => by simpa using hx) _
  · rw [if_neg hcase]
    apply find?_updateFirstBy_other
    · intro x hx
      simp only [Bool.and_eq_true, beq_iff_eq] at hx
      obtain ⟨hxw, hxi⟩ := hx
      simp only [Bool.and_eq_false_iff, beq_eq_false_iff_ne]
      by_cases hws : ws2 = ws
      · right
        intro hcid
        exact hcase ⟨hws, by rw [← hxi, hcid]⟩
      · left
        intro hcw
        exact hws (by rw [← hxw, hcw])
    · intro x
      rfl

lemma findInventoryItem_applyInventoryRule (st : AppState) (ws : String)
    (r : ServiceInventoryRule) (ws2 id2 : String) :
    findInventoryItem (applyInventoryRule st ws r).inventoryItems ws2 id2 =
      if ws2 = ws ∧ id2 = r.itemId then
        (findInventoryItem st.inventoryItems ws2 id2).map
          (fun i => { i with quantityOnHand := i.quantityOnHand - r.quantity })
      else findInventoryItem st.inventoryItems ws2 id2 := by
  cases hfind : findInventoryItem st.inventoryItems ws r.itemId with
  | none =>
    simp only [applyInventoryRule, hfind]
    by_cases hcase : ws2 = ws ∧ id2 = r.itemId
    · obtain ⟨rfl, rfl⟩ := hcase
      rw [if_pos (And.intro rfl rfl), hfind]
      rfl
    · rw [if_neg hcase]
  | some item =>
    simp only [applyInventoryRule, hfind]
    split
    · simp only [emitEvent_inventoryItems, createAlert_inventoryItems]
      exact findInventoryItem_updateFirstBy_deduct st.inventoryItems ws r.itemId
        r.quantity ws2 id2
    · exact findInventoryItem_updateFirstBy_deduct st.inventoryItems ws r.itemId
        r.quantity ws2 id2

lemma rulesQty_cons (r : ServiceInventoryRule) (rs : List ServiceInventoryRule)
    (id2 : String) :
    rulesQty (r :: rs) id2 =
      (if r.itemId = id2 then r.quantity else 0) + rulesQty rs id2 := by
  simp only [rulesQty, List.filter_cons]
  by_cases h : r.itemId = id2
  · simp [h]
  · simp [h]

lemma findInventoryItem_applyInventoryRules (st : AppState) (ws : String)
    (rules : List ServiceInventoryRule) (ws2 id2 : String) :
    findInventoryItem (applyInventoryRules st ws rules).inventoryItems ws2 id2 =
      (findInventoryItem st.inventoryItems ws2 id2).map
        (fun i => { i with quantityOnHand := i.quantityOnHand -
          (if ws2 = ws then rulesQty rules id2 else 0) }) := by
  induction rules generalizing st with
  | nil =>
    cases hfind : findInventoryItem st.inventoryItems ws2 id2 with
    | none => simp [applyInventoryRules, hfind]
    | some i => simp [applyInventoryRules, hfind, rulesQty]
  | cons r rs ih =>
    have hstep : applyInventoryRules st ws (r :: rs) =
        applyInventoryRules (applyInventoryRule st ws r) ws rs := rfl
    rw [hstep, ih, findInventoryItem_applyInventoryRule]
    by_cases hcase : ws2 = ws ∧ id2 = r.itemId
    · obtain ⟨rfl, rfl⟩ := hcase
      rw [if_pos (And.intro rfl rfl), Option.map_map]
      cases hfind : findInventoryItem st.inventoryItems ws2 r.itemId with
      | none => simp
      | some i =>
        have hq : rulesQty (r :: rs) r.itemId = r.quantity + rulesQty rs r.itemId := by
          rw [rulesQty_cons, if_pos rfl]
        rw [hq]
        simp [sub_sub]
    · rw [if_neg hcase]
      by_cases hws : ws2 = ws
      · have hid : ¬ id2 = r.itemId := fun h => hcase ⟨hws, h⟩
        have hq : rulesQty (r :: rs) id2 = rulesQty rs id2 := by
          rw [rulesQty_cons, if_neg (fun h => hid h.symm), zero_add]
        rw [hq]
      · simp [hws]

lemma applyInventoryRule_of_none (st : AppState) (ws : String)
    (r : ServiceInventoryRule)
    (hfind : findInventoryItem st.inventoryItems ws r.itemId = none) :
    applyInventoryRule st ws r = st := by
  simp [applyInventoryRule, hfind]

lemma checkInventoryRules_filter (items : List InventoryItem) (ws : String)
    (rules : List ServiceInventoryRule) :
    checkInventoryRules items ws rules =
      checkInventoryRules items ws
        (rules.filter fun r => (findInventoryItem items ws r.itemId).isSome) := by
  induction rules with
  | nil => rfl
  | cons r rs ih =>
    cases hfind : findInventoryItem items ws r.itemId with
    | none =>
      rw [List.filter_cons]
      simp only [hfind, Option.isSome_none, Bool.false_eq_true, if_neg,
        reduceCtorEq, not_false_eq_true]
      simp only [checkInventoryRules, hfind]
      exact ih
    | some item =>
      rw [List.filter_cons]
      simp only [hfind, Option.isSome_some, if_pos]
      simp only [checkInventoryRules, hfind]
      rw [ih]

lemma applyInventoryRules_filter (st : AppState) (ws : String)
    (rules : List ServiceInventoryRule) :
    applyInventoryRules st ws rules =
      applyInventoryRules st ws
        (rules.filter fun r => (findInventoryItem st.inventoryItems ws r.itemId).isSome) := by
  induction rules generalizing st with
  | nil => rfl
  | cons r rs ih =>
    have hstep : applyInventoryRules st ws (r :: rs) =
        applyInventoryRules (applyInventoryRule st ws r) ws rs := rfl
    cases hfind : findInventoryItem st.inventoryItems ws r.itemId with
    | none =>
      rw [List.filter_cons]
      simp only [hfind, Option.isSome_none, Bool.false_eq_true, if_neg,
        reduceCtorEq, not_false_eq_true]
      rw [hstep, applyInventoryRule_of_none st ws r hfind]
      exact ih st
    | some item =>
      rw [List.filter_cons]
      simp only [hfind, Option.isSome_some, if_pos]
      have hstep2 : applyInventoryRules st ws
          (r :: rs.filter fun x => (findInventoryItem st.inventoryItems ws x.itemId).isSome) =
          applyInventoryRules (applyInventoryRule st ws r) ws
            (rs.filter fun x => (findInventoryItem st.inventoryItems ws x.itemId).isSome) := rfl
      rw [hstep, hstep2, ih (applyInventoryRule st ws r)]
      congr 1
      apply List.filter_congr
      intro x _
      rw [findInventoryItem_applyInventoryRule]
      by_cases hcase : ws = ws ∧ x.itemId = r.itemId
      · rw [if_pos hcase]
        obtain ⟨-, h2⟩ := hcase
        rw [h2, hfind]
        rfl
      · rw [if_neg hcase]

/-- C10 (implicit): rules whose item id has no matching inventory item are
skipped by both loops of `applyInventoryOnBookingCompleted` — the sufficiency
check and the deduction behave exactly as on the rule list restricted to
existing items — and a confirmed booking whose service references only
missing items completes successfully with the inventory untouched. -/
theorem C10_missing_inventory_items_skipped :
    (∀ (items : List InventoryItem) (ws : String) (rules : List ServiceInventoryRule),
      checkInventoryRules items ws rules =
        checkInventoryRules items ws
          (rules.filter fun r => (findInventoryItem items ws r.itemId).isSome)) ∧
    (∀ (st : AppState) (ws : String) (rules : List ServiceInventoryRule),
      applyInventoryRules st ws rules =
        applyInventoryRules st ws
          (rules.filter fun r => (findInventoryItem st.inventoryItems ws r.itemId).isSome)) ∧
    (∀ (st : AppState) (ws bid : String) (b : Booking) (svc : Service),
      st.bookings.find? (liveBookingPred ws bid) = some b →
      b.status = .confirmed →
      st.bookings.find? (fun item => item.id == b.id && item.workspaceId == ws) = some b →
      st.services.find? (fun item =>
        item.id == b.serviceId && item.workspaceId == ws) = some svc →
      (∀ r ∈ svc.inventoryRules, findInventoryItem st.inventoryItems ws r.itemId = none) →
      (transitionBookingStatus st ws bid .completed).1 =
          .ok { b with status := .completed } ∧
        (transitionBookingStatus st ws bid .completed).2.inventoryItems =
          st.inventoryItems) := by
  refine ⟨checkInventoryRules_filter, applyInventoryRules_filter, ?_⟩
  intro st ws bid b svc hlive hstatus hdom hsvc hall
  have hcheck : checkInventoryRules st.inventoryItems ws svc.inventoryRules = none := by
    rw [checkInventoryRules_eq_none_iff]
    intro r hr i hi
    rw [hall r hr] at hi
    cases hi
  have hrules : applyInventoryRules st ws svc.inventoryRules = st := by
    rw [applyInventoryRules_filter]
    have : (svc.inventoryRules.filter fun r =>
        (findInventoryItem st.inventoryItems ws r.itemId).isSome) = [] := by
      rw [List.filter_eq_nil_iff]
      intro r hr
      rw [hall r hr]
      simp
    rw [this]
    rfl
  have hinv : applyInventoryOnBookingCompleted st ws b.id = (none, st) := by
    rw [applyInventoryOnBookingCompleted.eq_def]
    simp only [hdom, hsvc, hcheck, hrules]
  have hmem : BookingStatus.completed ∈ allowedTransitions b.status := by
    rw [hstatus]
    simp [allowedTransitions]
  simp only [transitionBookingStatus, hlive]
  rw [if_neg (by simpa using hmem)]
  simp [hinv]

/-- Witness for C10 at a concrete input: completing a confirmed booking whose
service consumes only a nonexistent item succeeds and deducts nothing. -/
theorem C10_witness :
    (transitionBookingStatus stC10 "w" "b1" .completed).1 =
        .ok { bkC10 with status := .completed } ∧
      (transitionBookingStatus stC10 "w" "b1" .completed).2.inventoryItems =
        stC10.inventoryItems :=
  C10_missing_inventory_items_skipped.2.2 stC10 "w" "b1" bkC10 svcGhost
    (by decide) (by decide) (by decide) (by decide) (by decide)

lemma rulesQty_eq_zero_of_not_mem (rules : List ServiceInventoryRule) (id2 : String)
    (h : id2 ∉ rules.map (fun r => r.itemId)) : rulesQty rules id2 = 0 := by
  unfold rulesQty
  have hnil : (rules.filter fun r => r.itemId == id2) = [] := by
    rw [List.filter_eq_nil_iff]
    intro r hr hbeq
    exact h (by
      rw [List.mem_map]
      exact ⟨r, hr, by simpa using hbeq⟩)
  rw [hnil]
  rfl

lemma rulesQty_of_nodup (rules : List ServiceInventoryRule)
    (hnodup : (rules.map (fun r => r.itemId)).Nodup) (r : ServiceInventoryRule)
    (hr : r ∈ rules) : rulesQty rules r.itemId = r.quantity := by
  induction rules with
  | nil => cases hr
  | cons x xs ih =>
    rw [List.map_cons, List.nodup_cons] at hnodup
    rw [rulesQty_cons]
    rcases List.mem_cons.mp hr with rfl | hr2
    · rw [if_pos rfl, rulesQty_eq_zero_of_not_mem xs r.itemId hnodup.1, add_zero]
    · have hne : x.itemId ≠ r.itemId := by
        intro h
        exact hnodup.1 (h ▸ List.mem_map_of_mem _ hr2)
      rw [if_neg hne, ih hnodup.2 hr2, zero_add]

lemma map_deduct_zero (x : Option InventoryItem) :
    x.map (fun i => { i with quantityOnHand := i.quantityOnHand - 0 }) = x := by
  cases x <;> simp

/-- C6: completing a booking is atomic over inventory.  `pending → completed`
is not even reachable (invalid transition, nothing changes).  For a confirmed
booking: the transition returns the completed booking iff every configured
rule whose item exists has sufficient stock; on success each such item is
decremented by exactly its configured quantity and every other item is
untouched; on insufficiency the transition fails with the
Insufficient-Inventory error and the whole state — in particular every
quantity — is exactly the input state. -/
theorem C6_inventory_atomic_completion
    (st : AppState) (ws bid : String) (b : Booking) (svc : Service)
    (hlive : st.bookings.find? (liveBookingPred ws bid) = some b)
    (hdom : st.bookings.find? (fun item =>
      item.id == b.id && item.workspaceId == ws) = some b)
    (hsvc : st.services.find? (fun item =>
      item.id == b.serviceId && item.workspaceId == ws) = some svc)
    (hnodup : (svc.inventoryRules.map (fun r => r.itemId)).Nodup) :
    (b.status = .pending →
      transitionBookingStatus st ws bid .completed =
        (.error (.invalidTransition .pending .completed), st)) ∧
    (b.status = .confirmed →
      (((transitionBookingStatus st ws bid .completed).1 =
          .ok { b with status := .completed }) ↔
        ∀ r ∈ svc.inventoryRules, ∀ i,
          findInventoryItem st.inventoryItems ws r.itemId = some i →
            r.quantity ≤ i.quantityOnHand) ∧
      ((∀ r ∈ svc.inventoryRules, ∀ i,
          findInventoryItem st.inventoryItems ws r.itemId = some i →
            r.quantity ≤ i.quantityOnHand) →
        (∀ r ∈ svc.inventoryRules, ∀ i,
          findInventoryItem st.inventoryItems ws r.itemId = some i →
          findInventoryItem
              (transitionBookingStatus st ws bid .completed).2.inventoryItems ws r.itemId =
            some { i with quantityOnHand := i.quantityOnHand - r.quantity }) ∧
        (∀ ws2 id2, (ws2 = ws → id2 ∉ svc.inventoryRules.map (fun r => r.itemId)) →
          findInventoryItem
              (transitionBookingStatus st ws bid .completed).2.inventoryItems ws2 id2 =
            findInventoryItem st.inventoryItems ws2 id2)) ∧
      ((¬ ∀ r ∈ svc.inventoryRules, ∀ i,
          findInventoryItem st.inventoryItems ws r.itemId = some i →
            r.quantity ≤ i.quantityOnHand) →
        ∃ name, transitionBookingStatus st ws bid .completed =
          (.error (.inventoryConflict (.insufficient name)), st))) := by
  constructor
  · intro hp
    simp only [transitionBookingStatus, hlive]
    rw [if_pos (by rw [hp]; decide), hp]
  · intro hc
    have hmem : BookingStatus.completed ∈ allowedTransitions b.status := by
      rw [hc]
      simp [allowedTransitions]
    by_cases hsuff : ∀ r ∈ svc.inventoryRules, ∀ i,
        findInventoryItem st.inventoryItems ws r.itemId = some i →
          r.quantity ≤ i.quantityOnHand
    · have hC : checkInventoryRules st.inventoryItems ws svc.inventoryRules = none :=
        (checkInventoryRules_eq_none_iff _ _ _).mpr hsuff
      have hinv : applyInventoryOnBookingCompleted st ws b.id =
          (none, applyInventoryRules st ws svc.inventoryRules) := by
        rw [applyInventoryOnBookingCompleted.eq_def]
        simp only [hdom, hsvc, hC]
      have h1 : (transitionBookingStatus st ws bid .completed).1 =
          .ok { b with status := .completed } := by
        simp only [transitionBookingStatus, hlive]
        rw [if_neg (by simpa using hmem)]
        simp [hinv]
      have h2 : (transitionBookingStatus st ws bid .completed).2.inventoryItems =
          (applyInventoryRules st ws svc.inventoryRules).inventoryItems := by
        simp only [transitionBookingStatus, hlive]
        rw [if_neg (by simpa using hmem)]
        simp [hinv]
      refine ⟨iff_of_true h1 hsuff, fun _ => ⟨?_, ?_⟩, fun hns => absurd hsuff hns⟩
      · intro r hr i hi
        rw [h2, findInventoryItem_applyInventoryRules, hi]
        rw [rulesQty_of_nodup svc.inventoryRules hnodup r hr]
        simp
      · intro ws2 id2 hnot
        rw [h2, findInventoryItem_applyInventoryRules]
        by_cases hws : ws2 = ws
        · rw [if_pos hws, rulesQty_eq_zero_of_not_mem _ _ (hnot hws)]
          exact map_deduct_zero _
        · rw [if_neg hws]
          exact map_deduct_zero _
    · have hCne : checkInventoryRules st.inventoryItems ws svc.inventoryRules ≠ none := by
        intro h
        exact hsuff ((checkInventoryRules_eq_none_iff _ _ _).mp h)
      obtain ⟨name, hCname⟩ := Option.ne_none_iff_exists'.mp hCne
      have hres : transitionBookingStatus st ws bid .completed =
          (.error (.inventoryConflict (.insufficient name)), st) := by
        have hinv : applyInventoryOnBookingCompleted st ws b.id =
            (some (.insufficient name), st) := by
          rw [applyInventoryOnBookingCompleted.eq_def]
          simp only [hdom, hsvc, hCname]
        simp only [transitionBookingStatus, hlive]
        rw [if_neg (by simpa using hmem)]
        simp [hinv]
      refine ⟨iff_of_false (by simp [hres]) hsuff, fun hs => absurd hs hsuff,
        fun _ => ⟨name, hres⟩⟩

/-- Witness for C6 at a concrete input: completing a confirmed booking with
sufficient stock succeeds and deducts exactly the configured quantity. -/
theorem C6_witness :
    (transitionBookingStatus stC6 "w" "b1" .completed).1 =
        .ok { bkC6 with status := .completed } ∧
      findInventoryItem
          (transitionBookingStatus stC6 "w" "b1" .completed).2.inventoryItems "w" "i1" =
        some { itemC6 with quantityOnHand := itemC6.quantityOnHand - 1 } :=
  ⟨((C6_inventory_atomic_completion stC6 "w" "b1" bkC6 svcC6 (by decide) (by decide)
      (by decide) (by decide)).2 (by decide)).1.mpr (by decide),
   (((C6_inventory_atomic_completion stC6 "w" "b1" bkC6 svcC6 (by decide) (by decide)
      (by decide) (by decide)).2 (by decide)).2.1 (by decide)).1
     { itemId := "i1", quantity := 1 } (by decide) itemC6 (by decide)⟩

/-- Counterexample for C7: the item is already at or below its threshold and
the earlier crossing already emitted an alert and an event, yet consuming one
more unit emits another alert and another automation event (the dedup hash
includes the current quantity, so the new event is not deduplicated). -/
theorem C7_counterexample :
    itemC7.quantityOnHand ≤ itemC7.lowStockThreshold ∧
      stC7.alerts.length = 1 ∧ stC7.automationEvents.length = 1 ∧
      (applyInventoryOnBookingCompleted stC7 "w" "b1").1 = none ∧
      (applyInventoryOnBookingCompleted stC7 "w" "b1").2.alerts.length = 2 ∧
      (applyInventoryOnBookingCompleted stC7 "w" "b1").2.automationEvents.length = 2 := by
  decide

lemma find?_append_of_none {α : Type} {p : α → Bool} {l₁ l₂ : List α}
    (h : l₁.find? p = none) : (l₁ ++ l₂).find? p = l₂.find? p := by
  induction l₁ with
  | nil => rfl
  | cons a l ih =>
    rw [List.cons_append]
    simp only [List.find?] at h ⊢
    cases hpa : p a
    · rw [hpa] at h
      exact ih h
    · rw [hpa] at h
      cases h

lemma find?_singleton_of_neg {α : Type} {p : α → Bool} {a : α} (h : p a = false) :
    List.find? p [a] = none := by
  simp [List.find?, h]

lemma emitEvent_automationEvents (st : AppState) (a b c d : String)
    (p : EventPayload) :
    (emitEvent st a b c d p).automationEvents =
      match st.automationEvents.find? (fun event =>
        event.workspaceId == a && event.eventType == b &&
        event.entityType == c && event.entityId == d && event.payload == p) with
      | some _ => st.automationEvents
      | none => st.automationEvents ++
          [{ id := freshId st.nextId, workspaceId := a, eventType := b,
             entityType := c, entityId := d, payload := p }] := by
  rw [emitEvent]
  cases h : st.automationEvents.find? (fun event =>
      event.workspaceId == a && event.eventType == b &&
      event.entityType == c && event.entityId == d && event.payload == p) <;>
    simp [allocId]

lemma emitEvent_nextId (st : AppState) (a b c d : String) (p : EventPayload) :
    (emitEvent st a b c d p).nextId =
      match st.automationEvents.find? (fun event =>
        event.workspaceId == a && event.eventType == b &&
        event.entityType == c && event.entityId == d && event.payload == p) with
      | some _ => st.nextId
      | none => st.nextId + 1 := by
  rw [emitEvent]
  cases h : st.automationEvents.find? (fun event =>
      event.workspaceId == a && event.eventType == b &&
      event.entityType == c && event.entityId == d && event.payload == p) <;>
    simp [allocId]

/-- One qualifying deduction step, fully characterised: the low-stock alert is
always appended, and the low-stock automation event is appended exactly when
no event with the identical key and payload is already recorded. -/
lemma applyInventoryRule_step_le (st : AppState) (ws : String)
    (r : ServiceInventoryRule) (i : InventoryItem)
    (hitem : findInventoryItem st.inventoryItems ws r.itemId = some i)
    (hle : i.quantityOnHand - r.quantity ≤ i.lowStockThreshold) :
    (applyInventoryRule st ws r).alerts =
      st.alerts ++
        [{ id := freshId st.nextId, workspaceId := ws,
           type := "inventory.low_stock", severity := .warning,
           message := lowStockMessage i.name (i.quantityOnHand - r.quantity) i.unit,
           link := none }] ∧
    (st.automationEvents.find? (fun event =>
        event.workspaceId == ws && event.eventType == "inventory.low_stock" &&
        event.entityType == "inventory_item" && event.entityId == i.id &&
        event.payload == EventPayload.lowStock (i.quantityOnHand - r.quantity)
          i.lowStockThreshold) = none →
      (applyInventoryRule st ws r).automationEvents =
        st.automationEvents ++
          [{ id := freshId (st.nextId + 1), workspaceId := ws,
             eventType := "inventory.low_stock", entityType := "inventory_item",
             entityId := i.id,
             payload := EventPayload.lowStock (i.quantityOnHand - r.quantity)
               i.lowStockThreshold }] ∧
      (applyInventoryRule st ws r).nextId = st.nextId + 2) ∧
    (∀ e, st.automationEvents.find? (fun event =>
        event.workspaceId == ws && event.eventType == "inventory.low_stock" &&
        event.entityType == "inventory_item" && event.entityId == i.id &&
        event.payload == EventPayload.lowStock (i.quantityOnHand - r.quantity)
          i.lowStockThreshold) = some e →
      (applyInventoryRule st ws r).automationEvents = st.automationEvents) := by
  simp only [applyInventoryRule, hitem]
  rw [if_pos hle]
  refine ⟨?_, ?_, ?_⟩
  · simp [createAlert, allocId]
  · intro hnone
    constructor
    · rw [emitEvent_automationEvents]
      simp [createAlert, allocId, hnone]
    · rw [emitEvent_nextId]
      simp [createAlert, allocId, hnone]
  · intro e hsome
    rw [emitEvent_automationEvents]
    simp [createAlert, allocId, hsome]

/-- C7 (amended): for each deduction step of inventory consumption whose item
exists, if the deduction leaves the item at or below its low-stock threshold
then a low-stock alert is emitted and — unless an automation event with the
identical key and identical payload already exists — a low-stock automation
event recording the new quantity is emitted; deductions leaving the item above
the threshold emit neither.  Emission happens once per deduction, not once per
crossing: nothing conditions on the pre-deduction position, and because the
event payload records the strictly decreased post-deduction quantity, a repeat
deduction of the same item appends a second alert and a second event — the
payload dedup never fires on it. -/
theorem C7_low_stock_alert_and_event_on_every_deduction
    (st : AppState) (ws : String) (r : ServiceInventoryRule) (i : InventoryItem)
    (hitem : findInventoryItem st.inventoryItems ws r.itemId = some i) :
    (i.quantityOnHand - r.quantity ≤ i.lowStockThreshold →
      (applyInventoryRule st ws r).alerts =
        st.alerts ++
          [{ id := freshId st.nextId, workspaceId := ws,
             type := "inventory.low_stock", severity := .warning,
             message := lowStockMessage i.name (i.quantityOnHand - r.quantity) i.unit,
             link := none }] ∧
      (st.automationEvents.find? (fun event =>
          event.workspaceId == ws && event.eventType == "inventory.low_stock" &&
          event.entityType == "inventory_item" && event.entityId == i.id &&
          event.payload == EventPayload.lowStock (i.quantityOnHand - r.quantity)
            i.lowStockThreshold) = none →
        (applyInventoryRule st ws r).automationEvents =
          st.automationEvents ++
            [{ id := freshId (st.nextId + 1), workspaceId := ws,
               eventType := "inventory.low_stock", entityType := "inventory_item",
               entityId := i.id,
               payload := EventPayload.lowStock (i.quantityOnHand - r.quantity)
                 i.lowStockThreshold }]) ∧
      (∀ e, st.automationEvents.find? (fun event =>
          event.workspaceId == ws && event.eventType == "inventory.low_stock" &&
          event.entityType == "inventory_item" && event.entityId == i.id &&
          event.payload == EventPayload.lowStock (i.quantityOnHand - r.quantity)
            i.lowStockThreshold) = some e →
        (applyInventoryRule st ws r).automationEvents = st.automationEvents)) ∧
    (i.lowStockThreshold < i.quantityOnHand - r.quantity →
      (applyInventoryRule st ws r).alerts = st.alerts ∧
      (applyInventoryRule st ws r).automationEvents = st.automationEvents) ∧
    (0 < r.quantity →
      i.quantityOnHand - r.quantity ≤ i.lowStockThreshold →
      st.automationEvents.find? (fun event =>
        event.workspaceId == ws && event.eventType == "inventory.low_stock" &&
        event.entityType == "inventory_item" && event.entityId == i.id &&
        event.payload == EventPayload.lowStock (i.quantityOnHand - r.quantity)
          i.lowStockThreshold) = none →
      st.automationEvents.find? (fun event =>
        event.workspaceId == ws && event.eventType == "inventory.low_stock" &&
        event.entityType == "inventory_item" && event.entityId == i.id &&
        event.payload == EventPayload.lowStock
          (i.quantityOnHand - r.quantity - r.quantity) i.lowStockThreshold) = none →
      (applyInventoryRule (applyInventoryRule st ws r) ws r).automationEvents =
        st.automationEvents ++
          [{ id := freshId (st.nextId + 1), workspaceId := ws,
             eventType := "inventory.low_stock", entityType := "inventory_item",
             entityId := i.id,
             payload := EventPayload.lowStock (i.quantityOnHand - r.quantity)
               i.lowStockThreshold }] ++
          [{ id := freshId (st.nextId + 3), workspaceId := ws,
             eventType := "inventory.low_stock", entityType := "inventory_item",
             entityId := i.id,
             payload := EventPayload.lowStock
               (i.quantityOnHand - r.quantity - r.quantity) i.lowStockThreshold }] ∧
      (applyInventoryRule (applyInventoryRule st ws r) ws r).alerts =
        st.alerts ++
          [{ id := freshId st.nextId, workspaceId := ws,
             type := "inventory.low_stock", severity := .warning,
             message := lowStockMessage i.name (i.quantityOnHand - r.quantity) i.unit,
             link := none }] ++
          [{ id := freshId (st.nextId + 2), workspaceId := ws,
             type := "inventory.low_stock", severity := .warning,
             message := lowStockMessage i.name
               (i.quantityOnHand - r.quantity - r.quantity) i.unit,
             link := none }]) := by
  refine ⟨?_, ?_, ?_⟩
  · intro hle
    obtain ⟨h1, h2, h3⟩ := applyInventoryRule_step_le st ws r i hitem hle
    exact ⟨h1, fun hn => (h2 hn).1, h3⟩
  · intro hgt
    simp only [applyInventoryRule, hitem]
    rw [if_neg (not_le.mpr hgt)]
    exact ⟨rfl, rfl⟩
  · intro hpos hle h1none h2none
    obtain ⟨ha1, he1, _⟩ := applyInventoryRule_step_le st ws r i hitem hle
    obtain ⟨hev1, hnext1⟩ := he1 h1none
    have hitem2 : findInventoryItem (applyInventoryRule st ws r).inventoryItems ws
        r.itemId = some { i with quantityOnHand := i.quantityOnHand - r.quantity } := by
      rw [findInventoryItem_applyInventoryRule, if_pos (And.intro rfl rfl), hitem]
      rfl
    have hle2 : i.quantityOnHand - r.quantity - r.quantity ≤ i.lowStockThreshold := by
      linarith
    obtain ⟨ha2, he2, _⟩ := applyInventoryRule_step_le (applyInventoryRule st ws r)
      ws r { i with quantityOnHand := i.quantityOnHand - r.quantity } hitem2 hle2
    have hpayne : EventPayload.lowStock (i.quantityOnHand - r.quantity)
        i.lowStockThreshold ≠
        EventPayload.lowStock (i.quantityOnHand - r.quantity - r.quantity)
          i.lowStockThreshold := by
      intro h
      injection h with h1 h2
      omega
    have h2x : (applyInventoryRule st ws r).automationEvents.find? (fun event =>
        event.workspaceId == ws && event.eventType == "inventory.low_stock" &&
        event.entityType == "inventory_item" && event.entityId == i.id &&
        event.payload == EventPayload.lowStock
          (i.quantityOnHand - r.quantity - r.quantity) i.lowStockThreshold) = none := by
      rw [hev1, find?_append_of_none h2none]
      apply find?_singleton_of_neg
      simp [hpayne]
    obtain ⟨hev2, _⟩ := he2 h2x
    constructor
    · rw [hev2, hev1, hnext1]
    · rw [ha2, ha1, hnext1]

/-- Witness for the amended C7: deducting from the already-low item twice in a
row appends a second alert and a second automation event — the payload dedup
does not suppress them. -/
theorem C7_witness :
    (applyInventoryRule (applyInventoryRule stC7 "w" { itemId := "i2", quantity := 1 })
        "w" { itemId := "i2", quantity := 1 }).automationEvents =
      stC7.automationEvents ++
        [{ id := freshId (stC7.nextId + 1), workspaceId := "w",
           eventType := "inventory.low_stock", entityType := "inventory_item",
           entityId := itemC7.id,
           payload := EventPayload.lowStock (itemC7.quantityOnHand - 1)
             itemC7.lowStockThreshold }] ++
        [{ id := freshId (stC7.nextId + 3), workspaceId := "w",
           eventType := "inventory.low_stock", entityType := "inventory_item",
           entityId := itemC7.id,
           payload := EventPayload.lowStock (itemC7.quantityOnHand - 1 - 1)
             itemC7.lowStockThreshold }] ∧
    (applyInventoryRule (applyInventoryRule stC7 "w" { itemId := "i2", quantity := 1 })
        "w" { itemId := "i2", quantity := 1 }).alerts =
      stC7.alerts ++
        [{ id := freshId stC7.nextId, workspaceId := "w",
           type := "inventory.low_stock", severity := .warning,
           message := lowStockMessage itemC7.name (itemC7.quantityOnHand - 1)
             itemC7.unit,
           link := none }] ++
        [{ id := freshId (stC7.nextId + 2), workspaceId := "w",
           type := "inventory.low_stock", severity := .warning,
           message := lowStockMessage itemC7.name (itemC7.quantityOnHand - 1 - 1)
             itemC7.unit,
           link := none }] :=
  (C7_low_stock_alert_and_event_on_every_deduction stC7 "w"
    { itemId := "i2", quantity := 1 } itemC7 (by decide)).2.2
    (by decide) (by decide) (by decide) (by decide)

/-! ## C1: preservation of the no-overlap invariant -/

lemma mem_of_find?_eq_some {p : α → Bool} {l : List α} {b : α}
    (h : l.find? p = some b) : b ∈ l :=
  List.mem_of_find?_eq_some h

lemma noOverlapInvariant_append (bs : List Booking) (nb : Booking)
    (hinv : noOverlapInvariant bs)
    (hguard : isBookingOverlapping bs nb.workspaceId nb.startsAt nb.endsAt none = false) :
    noOverlapInvariant (bs ++ [nb]) := by
  have hno : ∀ c ∈ bs, c.workspaceId = nb.workspaceId → activeBooking c →
      ¬(nb.startsAt < c.endsAt ∧ c.startsAt < nb.endsAt) := by
    intro c hc hws hact hcon
    have : isBookingOverlapping bs nb.workspaceId nb.startsAt nb.endsAt none = true := by
      rw [isBookingOverlapping_eq_true_iff]
      exact ⟨c, hc, hws, by rintro eid ⟨⟩, hact.1, hact.2, hcon.1, hcon.2⟩
    rw [hguard] at this
    cases this
  intro b1 hb1 b2 hb2 hid hws hact1 hact2
  rcases List.mem_append.mp hb1 with hb1' | hb1' <;>
    rcases List.mem_append.mp hb2 with hb2' | hb2'
  · exact hinv b1 hb1' b2 hb2' hid hws hact1 hact2
  · have hb2nb : b2 = nb := by simpa using hb2'
    subst hb2nb
    intro hcon
    exact hno b1 hb1' hws hact1 ⟨hcon.2, hcon.1⟩
  · have hb1nb : b1 = nb := by simpa using hb1'
    subst hb1nb
    intro hcon
    exact hno b2 hb2' hws.symm hact2 hcon
  · have h1 : b1 = nb := by simpa using hb1'
    have h2 : b2 = nb := by simpa using hb2'
    subst h1; subst h2
    exact absurd rfl hid

lemma noOverlapInvariant_updateFirstBy (bs : List Booking) (p : Booking → Bool)
    (f : Booking → Booking)
    (hpres : ∀ x, (f x).id = x.id ∧ (f x).workspaceId = x.workspaceId)
    (hcase : ∀ b, bs.find? p = some b → ∀ c ∈ bs, c.id ≠ b.id →
      c.workspaceId = b.workspaceId → activeBooking (f b) → activeBooking c →
      ¬((f b).startsAt < c.endsAt ∧ c.startsAt < (f b).endsAt))
    (hinv : noOverlapInvariant bs) :
    noOverlapInvariant (updateFirstBy p f bs) := by
  intro b1 hb1 b2 hb2 hid hws hact1 hact2
  rcases mem_updateFirstBy hb1 with hb1' | ⟨c1, hc1, rfl⟩ <;>
    rcases mem_updateFirstBy hb2 with hb2' | ⟨c2, hc2, rfl⟩
  · exact hinv b1 hb1' b2 hb2' hid hws hact1 hact2
  · intro hcon
    refine hcase c2 hc2 b1 hb1' ?_ ?_ hact2 hact1 ⟨hcon.2, hcon.1⟩
    · rw [(hpres c2).1] at hid
      exact hid
    · rw [(hpres c2).2] at hws
      exact hws
  · intro hcon
    refine hcase c1 hc1 b2 hb2' ?_ ?_ hact1 hact2 hcon
    · rw [(hpres c1).1] at hid
      exact fun h => hid h.symm
    · rw [(hpres c1).2] at hws
      exact hws.symm
  · rw [hc1] at hc2
    have : c1 = c2 := by cases hc2; rfl
    subst this
    exact absurd rfl (by rw [(hpres c1).1] at hid; exact hid)

lemma transitionBookingStatus_bookings (st : AppState) (ws bid : String)
    (target : BookingStatus) :
    (transitionBookingStatus st ws bid target).2.bookings = st.bookings ∨
    ∃ b, st.bookings.find? (liveBookingPred ws bid) = some b ∧
      target ∈ allowedTransitions b.status ∧
      (transitionBookingStatus st ws bid target).2.bookings =
        updateFirstBy (liveBookingPred ws bid)
          (fun x => { x with status := target }) st.bookings := by
  cases hfind : st.bookings.find? (liveBookingPred ws bid) with
  | none => left; simp [transitionBookingStatus, hfind]
  | some b =>
    by_cases hmem : target ∈ allowedTransitions b.status
    · simp only [transitionBookingStatus, hfind]
      rw [if_neg (by simpa using hmem)]
      rcases hinv : (if (target == BookingStatus.completed) = true then
          applyInventoryOnBookingCompleted st ws b.id else (none, st)) with ⟨err, stInv⟩
      have hbk : stInv.bookings = st.bookings := by
        by_cases ht : (target == BookingStatus.completed) = true
        · rw [if_pos ht] at hinv
          have h := applyInventoryOnBookingCompleted_bookings st ws b.id
          rw [hinv] at h
          exact h
        · rw [if_neg ht] at hinv
          cases hinv
          rfl
      cases err with
      | some e =>
        left
        simpa using hbk
      | none =>
        right
        refine ⟨b, rfl, hmem, ?_⟩
        simp only [emitEvent_bookings]
        simpa using hbk ▸ rfl
    · left
      simp only [transitionBookingStatus, hfind]
      rw [if_pos (by simpa using hmem)]

lemma softDeleteBooking_bookings (st : AppState) (ws bid : String) (now : Instant) :
    (softDeleteBooking st ws bid now).2.bookings = st.bookings ∨
    (softDeleteBooking st ws bid now).2.bookings =
      updateFirstBy (liveBookingPred ws bid)
        (fun x => { x with status := BookingStatus.cancelled, deletedAt := some now })
        st.bookings := by
  cases hfind : st.bookings.find? (liveBookingPred ws bid) with
  | none => left; simp [softDeleteBooking, hfind]
  | some b => right; simp [softDeleteBooking, hfind]

lemma rescheduleBooking_bookings (tzs : TimeZones) (st : AppState) (ws bid : String)
    (input : Option Instant) :
    (rescheduleBooking tzs st ws bid input).2.bookings = st.bookings ∨
    ∃ b newS newE, st.bookings.find? (liveBookingPred ws bid) = some b ∧
      isBookingOverlapping st.bookings ws newS newE (some b.id) = false ∧
      (rescheduleBooking tzs st ws bid input).2.bookings =
        updateFirstBy (liveBookingPred ws bid)
          (fun x => { x with startsAt := newS, endsAt := newE }) st.bookings := by
  cases hw : st.workspaces.find? (fun w => w.id == ws) with
  | none => left; simp [rescheduleBooking, hw]
  | some workspace =>
    cases hfind : st.bookings.find? (liveBookingPred ws bid) with
    | none => left; simp [rescheduleBooking, hw, hfind]
    | some b =>
      by_cases hterm : (b.status == BookingStatus.completed ||
          b.status == BookingStatus.cancelled ||
          b.status == BookingStatus.no_show) = true
      · left; simp only [rescheduleBooking, hw, hfind]; rw [if_pos hterm]
      · cases hin : input with
        | none =>
          left
          simp only [rescheduleBooking, hw, hfind]
          rw [if_neg hterm]
        | some startsAt =>
          cases hsvc : st.services.find? (fun item =>
              item.id == b.serviceId && item.workspaceId == ws) with
          | none =>
            left
            simp only [rescheduleBooking, hw, hfind]
            rw [if_neg hterm]
            simp [hsvc]
          | some service =>
            by_cases havail : (!isWithinAvailabilityRule (tzs (effectiveTimezone workspace))
                st.availabilityRules ws service.id startsAt
                (addMinutes startsAt service.durationMin) service.durationMin) = true
            · left
              simp only [rescheduleBooking, hw, hfind]
              rw [if_neg hterm]
              simp only [hsvc]
              rw [if_pos havail]
            · by_cases hov : isBookingOverlapping st.bookings ws startsAt
                  (addMinutes startsAt service.durationMin) (some b.id) = true
              · left
                simp only [rescheduleBooking, hw, hfind]
                rw [if_neg hterm]
                simp only [hsvc]
                rw [if_neg (by simpa using havail), if_pos hov]
              · right
                refine ⟨b, startsAt, addMinutes startsAt service.durationMin,
                  rfl, by simpa using hov, ?_⟩
                simp only [rescheduleBooking, hw, hfind]
                rw [if_neg hterm]
                simp only [hsvc]
                rw [if_neg (by simpa using havail), if_neg hov]
                simp

lemma createPublicBooking_bookings (tzs : TimeZones)
    (fieldCheck : ContactFields → Option String) (st : AppState)
    (p : String) (k : Option String) (body : BookingBody) (now : Instant) :
    (createPublicBooking tzs fieldCheck st p k body now).2.bookings = st.bookings ∨
    ∃ nb : Booking,
      isBookingOverlapping st.bookings nb.workspaceId nb.startsAt nb.endsAt none = false ∧
      (createPublicBooking tzs fieldCheck st p k body now).2.bookings =
        st.bookings ++ [nb] := by
  cases hw : st.workspaces.find? (fun w => w.id == p) with
  | none => left; simp [createPublicBooking, hw]
  | some workspace =>
    by_cases hk : strFalsy k = true
    · left; simp only [createPublicBooking, hw]; rw [if_pos hk]
    · cases hid : findIdempotency st workspace.id (k.getD "") "POST"
          (publicBookingPath p) with
      | some existing =>
        by_cases hh : (existing.requestHash != body) = true
        · left
          simp only [createPublicBooking, hw]
          rw [if_neg hk]
          simp only [hid]
          rw [if_pos hh]
        · left
          simp only [createPublicBooking, hw]
          rw [if_neg hk]
          simp only [hid]
          rw [if_neg hh]
      | none =>
        cases hsid : body.serviceId with
        | none =>
          left
          simp only [createPublicBooking, hw]
          rw [if_neg hk]
          simp only [hid, hsid]
        | some serviceId =>
          cases hstart : body.startsAt with
          | none =>
            left
            simp only [createPublicBooking, hw]
            rw [if_neg hk]
            simp only [hid, hsid, hstart]
          | some startsAt =>
            by_cases hsempty : (serviceId == "") = true
            · left
              simp only [createPublicBooking, hw]
              rw [if_neg hk]
              simp only [hid, hsid, hstart]
              rw [if_pos hsempty]
            · cases hfc : fieldCheck body.fields with
              | some msg =>
                left
                simp only [createPublicBooking, hw]
                rw [if_neg hk]
                simp only [hid, hsid, hstart]
                rw [if_neg hsempty]
                simp [hfc]
              | none =>
                cases hsvc : st.services.find? (fun item =>
                    item.workspaceId == workspace.id && item.id == serviceId &&
                    item.isActive) with
                | none =>
                  left
                  simp only [createPublicBooking, hw]
                  rw [if_neg hk]
                  simp only [hid, hsid, hstart]
                  rw [if_neg hsempty]
                  simp [hfc, hsvc]
                | some service =>
                  by_cases havail : (!isWithinAvailabilityRule
                     (tzs (effectiveTimezone workspace)) st.availabilityRules
                      workspace.id service.id startsAt
                      (addMinutes startsAt service.durationMin)
                      service.durationMin) = true
                  · left
                    simp only [createPublicBooking, hw]
                    rw [if_neg hk]
                    simp only [hid, hsid, hstart]
                    rw [if_neg hsempty]
                    simp only [hfc, hsvc]
                    rw [if_pos havail]
                  · by_cases hov : isBookingOverlapping st.bookings workspace.id
                        startsAt (addMinutes startsAt service.durationMin) none = true
                    · left
                      simp only [createPublicBooking, hw]
                      rw [if_neg hk]
                      simp only [hid, hsid, hstart]
                      rw [if_neg hsempty]
                      simp only [hfc, hsvc]
                      rw [if_neg (by simpa using havail), if_pos hov]
                    · right
                      simp only [createPublicBooking, hw]
                      rw [if_neg hk]
                      simp only [hid, hsid, hstart]
                      rw [if_neg hsempty]
                      simp only [hfc, hsvc]
                      rw [if_neg (by simpa using havail), if_neg hov]
                      refine ⟨{
                          id := (allocId (findOrCreateContact st workspace.id
                            body.fields.firstName body.fields.lastName
                            (body.fields.email.map (fun s => s.toLower))
                            body.fields.phone).2).1,
                          workspaceId := workspace.id,
                          contactId := (findOrCreateContact st workspace.id
                            body.fields.firstName body.fields.lastName
                            (body.fields.email.map (fun s => s.toLower))
                            body.fields.phone).1.id,
                          serviceId := service.id,
                          startsAt := startsAt,
                          endsAt := addMinutes startsAt service.durationMin,
                          status := BookingStatus.pending,
                          deletedAt := none }, by simpa using hov, ?_⟩
                      split <;> simp

/-- C1: the no-overlap invariant — no two distinct active (not cancelled, not
no-show) bookings of the same tenant overlap in time — is preserved by every
booking-mutating operation: public creation, status transition, soft delete
and reschedule.  Creation and reschedule are guarded by `isBookingOverlapping`;
transitions never turn an inactive booking active; soft delete cancels. -/
theorem C1_no_overlap_invariant_preserved (tzs : TimeZones)
    (fieldCheck : ContactFields → Option String) (now : Instant)
    (st : AppState) (op : BookingOp)
    (hinv : noOverlapInvariant st.bookings) :
    noOverlapInvariant (applyBookingOp tzs fieldCheck now st op).bookings := by
  cases op with
  | create p k b =>
    show noOverlapInvariant (createPublicBooking tzs fieldCheck st p k b now).2.bookings
    rcases createPublicBooking_bookings tzs fieldCheck st p k b now with h | ⟨nb, hg, h⟩
    · rw [h]; exact hinv
    · rw [h]; exact noOverlapInvariant_append _ _ hinv hg
  | transition ws bid t =>
    show noOverlapInvariant (transitionBookingStatus st ws bid t).2.bookings
    rcases transitionBookingStatus_bookings st ws bid t with h | ⟨b, hfind, hmem, h⟩
    · rw [h]; exact hinv
    · rw [h]
      refine noOverlapInvariant_updateFirstBy _ _ _ (fun x => ⟨rfl, rfl⟩) ?_ hinv
      intro b' hfind' c hc hcid hcws hactf hactc
      rw [hfind] at hfind'
      cases hfind'
      have hactb : activeBooking b := by
        cases hst : b.status with
        | pending => refine ⟨?_, ?_⟩ <;> rw [hst] <;> intro hx <;> cases hx
        | confirmed => refine ⟨?_, ?_⟩ <;> rw [hst] <;> intro hx <;> cases hx
        | completed => rw [hst] at hmem; cases hmem
        | no_show => rw [hst] at hmem; cases hmem
        | cancelled => rw [hst] at hmem; cases hmem
      exact hinv b (mem_of_find?_eq_some hfind) c hc (fun hx => hcid hx.symm)
        hcws.symm hactb hactc
  | softDelete ws bid =>
    show noOverlapInvariant (softDeleteBooking st ws bid now).2.bookings
    rcases softDeleteBooking_bookings st ws bid now with h | h
    · rw [h]; exact hinv
    · rw [h]
      refine noOverlapInvariant_updateFirstBy _ _ _ (fun x => ⟨rfl, rfl⟩) ?_ hinv
      intro b hfind c hc hcid hcws hactf hactc
      exact absurd rfl hactf.1
  | reschedule ws bid sIn =>
    show noOverlapInvariant (rescheduleBooking tzs st ws bid sIn).2.bookings
    rcases rescheduleBooking_bookings tzs st ws bid sIn with h | ⟨b, newS, newE, hfind, hg, h⟩
    · rw [h]; exact hinv
    · rw [h]
      refine noOverlapInvariant_updateFirstBy _ _ _ (fun x => ⟨rfl, rfl⟩) ?_ hinv
      intro b' hfind' c hc hcid hcws hactf hactc
      rw [hfind] at hfind'
      cases hfind'
      have hbws : b.workspaceId = ws := by
        have hp := List.find?_some hfind
        simp only [liveBookingPred, Bool.and_eq_true, beq_iff_eq] at hp
        exact hp.1.2
      intro hcon
      have htrue : isBookingOverlapping st.bookings ws newS newE (some b.id) = true := by
        rw [isBookingOverlapping_eq_true_iff]
        exact ⟨c, hc, by rw [hcws, hbws], fun eid heq hne => by cases heq; exact hcid,
          hactc.1, hactc.2, hcon.1, hcon.2⟩
      rw [hg] at htrue
      cases htrue

/-- C1 instantiated: soft-deleting in the empty store preserves the invariant. -/
theorem C1_witness :
    noOverlapInvariant
      (applyBookingOp tzsTrivial (fun _ => none) 0 emptyState
        (BookingOp.softDelete "w" "b1")).bookings :=
  C1_no_overlap_invariant_preserved tzsTrivial (fun _ => none) 0 emptyState
    (BookingOp.softDelete "w" "b1")
    (by intro b1 hb1 b2 hb2 _ _ _ _; simp [emptyState] at hb1)

lemma resolveStep_windowsOf (tz : TimeZoneOps) (ws sid dateKey : String)
    (weekday dur : Int) (acc : ResolveAcc) (rule : AvailabilityRule) :
    (resolveStep tz ws sid dateKey weekday dur acc rule).overrideWindows =
      acc.overrideWindows ++ (overrideWindowOf tz ws sid dateKey dur rule).toList ∧
    (resolveStep tz ws sid dateKey weekday dur acc rule).weeklyWindows =
      acc.weeklyWindows ++ (weeklyWindowOf tz ws sid dateKey weekday dur rule).toList := by
  cases hm : (rule.workspaceId == ws && rule.serviceId == sid) with
  | false =>
    constructor <;> simp [resolveStep, overrideWindowOf, weeklyWindowOf, hm]
  | true =>
    cases hrt : resolveRuleType rule with
    | weekly =>
      cases hwd : (rule.weekday == some weekday) with
      | false =>
        constructor <;>
          simp [resolveStep, overrideWindowOf, weeklyWindowOf, bne, hm, hrt, hwd]
      | true =>
        cases htw : toAvailabilityWindow tz dateKey rule
            (dur + max 0 (rule.bufferMin.getD 0)) <;>
          constructor <;>
            simp [resolveStep, overrideWindowOf, weeklyWindowOf, bne, hm, hrt, hwd,
              htw]
    | date_override =>
      cases hdt : (rule.date == some dateKey) with
      | false =>
        constructor <;>
          simp [resolveStep, overrideWindowOf, weeklyWindowOf, bne, hm, hrt, hdt]
      | true =>
        cases htw : toAvailabilityWindow tz dateKey rule
            (dur + max 0 (rule.bufferMin.getD 0)) <;>
          constructor <;>
            simp [resolveStep, overrideWindowOf, weeklyWindowOf, bne, hm, hrt, hdt,
              htw]
    | date_block =>
      cases hdt : (rule.date == some dateKey) with
      | false =>
        constructor <;>
          simp [resolveStep, overrideWindowOf, weeklyWindowOf, bne, hm, hrt, hdt]
      | true =>
        cases hcl : rule.isClosedAllDay.getD false with
        | true =>
          constructor <;>
            simp [resolveStep, overrideWindowOf, weeklyWindowOf, bne, hm, hrt, hdt,
              hcl]
        | false =>
          cases htw : toAvailabilityWindow tz dateKey rule 1 <;>
            constructor <;>
              simp [resolveStep, overrideWindowOf, weeklyWindowOf, bne, hm, hrt,
                hdt, hcl, htw]

lemma resolveFold_windowsOf (tz : TimeZoneOps) (ws sid dateKey : String)
    (weekday dur : Int) (rules : List AvailabilityRule) :
    ∀ acc : ResolveAcc,
      (rules.foldl (resolveStep tz ws sid dateKey weekday dur) acc).overrideWindows =
        acc.overrideWindows ++ rules.filterMap (overrideWindowOf tz ws sid dateKey dur) ∧
      (rules.foldl (resolveStep tz ws sid dateKey weekday dur) acc).weeklyWindows =
        acc.weeklyWindows ++
          rules.filterMap (weeklyWindowOf tz ws sid dateKey weekday dur) := by
  induction rules with
  | nil => intro acc; simp
  | cons r rs ih =>
    intro acc
    rw [List.foldl_cons]
    rcases ih (resolveStep tz ws sid dateKey weekday dur acc r) with ⟨h1, h2⟩
    rcases resolveStep_windowsOf tz ws sid dateKey weekday dur acc r with ⟨g1, g2⟩
    constructor
    · rw [h1, g1, List.filterMap_cons]
      cases overrideWindowOf tz ws sid dateKey dur r <;> simp [Option.toList]
    · rw [h2, g2, List.filterMap_cons]
      cases weeklyWindowOf tz ws sid dateKey weekday dur r <;> simp [Option.toList]

lemma resolveAvailabilityForDate_windows (tz : TimeZoneOps)
    (rules : List AvailabilityRule) (ws sid dateKey : String) (weekday dur : Int) :
    (resolveAvailabilityForDate tz rules ws sid dateKey weekday dur).windows =
      if (rules.filterMap (overrideWindowOf tz ws sid dateKey dur)).isEmpty then
        rules.filterMap (weeklyWindowOf tz ws sid dateKey weekday dur)
      else rules.filterMap (overrideWindowOf tz ws sid dateKey dur) := by
  rcases resolveFold_windowsOf tz ws sid dateKey weekday dur rules ⟨[], [], [], false⟩
    with ⟨h1, h2⟩
  simp only [resolveAvailabilityForDate, h1, h2]
  simp

lemma toAvailabilityWindow_stepMin {tz : TimeZoneOps} {dateKey : String}
    {rule : AvailabilityRule} {d : Int} {w : AvailabilityWindow}
    (h : toAvailabilityWindow tz dateKey rule d = some w) : 1 ≤ w.stepMin := by
  simp only [toAvailabilityWindow] at h
  split at h
  · cases h
  · split at h
    · cases h
    · cases h
      exact le_max_left 1 _

lemma slotWalk_sound (bookings : List Booking) (wsId : String) (dur : Int)
    (resolved : ResolvedAvailability) (w : AvailabilityWindow)
    (Q : Instant × Instant → Prop)
    (hstep : 0 ≤ w.stepMin)
    (hfit : ∀ c e : Instant, w.startIso ≤ c → e ≤ w.endIso →
      e = addMinutes c dur → Q (c, e)) :
    ∀ (fuel : Nat) (cursor : Instant) (slots : List (Instant × Instant))
      (seen : List Instant), w.startIso ≤ cursor → (∀ s ∈ slots, Q s) →
      ∀ s ∈ (slotWalk bookings wsId dur resolved w fuel cursor (slots, seen)).1, Q s := by
  intro fuel
  induction fuel with
  | zero => intro cursor slots seen _ hprev s hs; exact hprev s hs
  | succ n ih =>
    intro cursor slots seen hcur hprev s hs
    rw [slotWalk] at hs
    by_cases hlt : cursor < w.endIso
    · rw [if_pos hlt] at hs
      by_cases hend : w.endIso < addMinutes cursor dur
      · rw [if_pos hend] at hs
        exact hprev s hs
      · rw [if_neg hend] at hs
        have hnext : w.startIso ≤ addMinutes cursor w.stepMin := by
          have : (0 : Int) ≤ w.stepMin * 60000 :=
            mul_nonneg hstep (by norm_num)
          have := le_add_of_nonneg_right (a := cursor) this
          exact le_trans hcur this
        by_cases hguard : (!isBookingOverlapping bookings wsId cursor
            (addMinutes cursor dur) none &&
            !isBlockedByException cursor (addMinutes cursor dur) resolved &&
            !(seen.contains cursor)) = true
        · rw [if_pos hguard] at hs
          refine ih (addMinutes cursor w.stepMin) (slots ++ [(cursor, addMinutes cursor dur)])
            (seen ++ [cursor]) hnext ?_ s hs
          intro t ht
          rcases List.mem_append.mp ht with ht' | ht'
          · exact hprev t ht'
          · have : t = (cursor, addMinutes cursor dur) := by simpa using ht'
            subst this
            exact hfit cursor (addMinutes cursor dur) hcur (not_lt.mp hend) rfl
        · rw [if_neg hguard] at hs
          exact ih (addMinutes cursor w.stepMin) slots seen hnext hprev s hs
    · rw [if_neg hlt] at hs
      exact hprev s hs

lemma generateSlots_sound (bookings : List Booking) (wsId : String) (dur : Int)
    (resolved : ResolvedAvailability)
    (hstep : ∀ w ∈ resolved.windows, 0 ≤ w.stepMin) :
    ∀ s ∈ generateSlots bookings wsId dur resolved,
      ∃ w ∈ resolved.windows,
        w.startIso ≤ s.1 ∧ s.2 ≤ w.endIso ∧ s.2 = addMinutes s.1 dur := by
  have hfold : ∀ (l : List AvailabilityWindow), (∀ w ∈ l, w ∈ resolved.windows) →
      ∀ acc : List (Instant × Instant) × List Instant,
        (∀ s ∈ acc.1, ∃ w ∈ resolved.windows,
          w.startIso ≤ s.1 ∧ s.2 ≤ w.endIso ∧ s.2 = addMinutes s.1 dur) →
        ∀ s ∈ (l.foldl
          (fun acc w => slotWalk bookings wsId dur resolved w
            ((w.endIso - w.startIso).toNat + 1) w.startIso acc) acc).1,
          ∃ w ∈ resolved.windows,
            w.startIso ≤ s.1 ∧ s.2 ≤ w.endIso ∧ s.2 = addMinutes s.1 dur := by
    intro l
    induction l with
    | nil => intro _ acc hacc s hs; exact hacc s hs
    | cons w ws ih =>
      intro hmem acc hacc s hs
      rw [List.foldl_cons] at hs
      rcases acc with ⟨slots, seen⟩
      refine ih (fun x hx => hmem x (List.mem_cons_of_mem w hx))
        (slotWalk bookings wsId dur resolved w
          ((w.endIso - w.startIso).toNat + 1) w.startIso (slots, seen)) ?_ s hs
      intro t ht
      refine slotWalk_sound bookings wsId dur resolved w _
        (hstep w (hmem w (List.mem_cons_self w ws))) ?_
        ((w.endIso - w.startIso).toNat + 1) w.startIso slots seen le_rfl hacc t ht
      intro c e hc he hdur
      exact ⟨w, hmem w (List.mem_cons_self w ws), hc, he, hdur⟩
  intro s hs
  rw [generateSlots] at hs
  have hs' := ((List.perm_insertionSort
    (fun a b : Instant × Instant => a.1 ≤ b.1) _).mem_iff).mp hs
  by_cases hcl : resolved.closedAllDay = true
  · rw [if_pos hcl] at hs'
    simp at hs'
  · rw [if_neg hcl] at hs'
    exact hfold resolved.windows (fun _ hx => hx) ([], []) (by intro t ht; simp at ht)
      s hs'

lemma overrideWindowOf_stepMin {tz : TimeZoneOps} {ws sid dateKey : String}
    {dur : Int} {rule : AvailabilityRule} {w : AvailabilityWindow}
    (h : overrideWindowOf tz ws sid dateKey dur rule = some w) : 1 ≤ w.stepMin := by
  simp only [overrideWindowOf] at h
  split at h
  · exact toAvailabilityWindow_stepMin h
  · cases h

/-- C4: date-override precedence.  The windows `resolveAvailabilityForDate`
resolves for a date are exactly the contributions of the matching
`date_override` rules whenever at least one such contribution exists — every
weekly rule is ignored, replacement not merge — and otherwise exactly the
contributions of the weekly rules matching the date's weekday.  Consequently
every slot the public slots route generates on an overridden date lies inside
some override window. -/
theorem C4_date_override_replaces_weekly (tz : TimeZoneOps)
    (bookings : List Booking) (rules : List AvailabilityRule)
    (ws sid dateKey : String) (weekday dur : Int) :
    ((resolveAvailabilityForDate tz rules ws sid dateKey weekday dur).windows =
      if (rules.filterMap (overrideWindowOf tz ws sid dateKey dur)).isEmpty then
        rules.filterMap (weeklyWindowOf tz ws sid dateKey weekday dur)
      else rules.filterMap (overrideWindowOf tz ws sid dateKey dur)) ∧
    (¬(rules.filterMap (overrideWindowOf tz ws sid dateKey dur)).isEmpty = true →
      ∀ s ∈ generateSlots bookings ws dur
          (resolveAvailabilityForDate tz rules ws sid dateKey weekday dur),
        ∃ w ∈ rules.filterMap (overrideWindowOf tz ws sid dateKey dur),
          w.startIso ≤ s.1 ∧ s.2 ≤ w.endIso ∧ s.2 = addMinutes s.1 dur) := by
  have hw := resolveAvailabilityForDate_windows tz rules ws sid dateKey weekday dur
  refine ⟨hw, ?_⟩
  intro hne s hs
  have hwin : (resolveAvailabilityForDate tz rules ws sid dateKey weekday dur).windows =
      rules.filterMap (overrideWindowOf tz ws sid dateKey dur) := by
    rw [hw, if_neg hne]
  have hstep : ∀ w ∈ (resolveAvailabilityForDate tz rules ws sid dateKey
      weekday dur).windows, 0 ≤ w.stepMin := by
    rw [hwin]
    intro w hw'
    rcases List.mem_filterMap.mp hw' with ⟨r, _, hr⟩
    exact le_trans zero_le_one (overrideWindowOf_stepMin hr)
  have hsound := generateSlots_sound bookings ws dur
    (resolveAvailabilityForDate tz rules ws sid dateKey weekday dur) hstep s hs
  rw [hwin] at hsound
  exact hsound

/-- C4 instantiated: with the weekly 09:00–17:00 rule and the 09:00–12:00
override both present, the generated slot starting 09:00 lies inside an
override window (and in particular inside 09:00–12:00). -/
theorem C4_witness :
    ∃ w ∈ rulesC4.filterMap (overrideWindowOf tzC4 "w" "s1" "2024-01-01" 30),
      w.startIso ≤ (32400000 : Instant) ∧ (34200000 : Instant) ≤ w.endIso ∧
      (34200000 : Instant) = addMinutes 32400000 30 :=
  (C4_date_override_replaces_weekly tzC4 [] rulesC4 "w" "s1" "2024-01-01" 1 30).2
    (by decide) (32400000, 34200000) (by decide)

/-- When a ledger record for the tenant/key/method/path exists and its stored
request hash matches the submitted body, the route replays the stored
snapshot and leaves the state untouched. -/
lemma createPublicBooking_replays (tzs : TimeZones)
    (fieldCheck : ContactFields → Option String) (st : AppState) (p : String)
    (k : Option String) (body : BookingBody) (now : Instant)
    (workspace : Workspace) (rec : IdempotencyKey)
    (hw : st.workspaces.find? (fun w => w.id == p) = some workspace)
    (hk : strFalsy k = false)
    (hid : findIdempotency st workspace.id (k.getD "") "POST"
      (publicBookingPath p) = some rec)
    (hhash : rec.requestHash = body) :
    createPublicBooking tzs fieldCheck st p k body now =
      (.replayed rec.responseSnapshot, st) := by
  simp only [createPublicBooking, hw, hk, hid]
  rw [if_neg (by simp [hk]), if_neg (by simp [bne, hhash])]

/-- When a ledger record exists but its stored request hash differs from the
submitted body, the route fails with a Conflict and leaves the state
untouched. -/
lemma createPublicBooking_conflicts (tzs : TimeZones)
    (fieldCheck : ContactFields → Option String) (st : AppState) (p : String)
    (k : Option String) (body : BookingBody) (now : Instant)
    (workspace : Workspace) (rec : IdempotencyKey)
    (hw : st.workspaces.find? (fun w => w.id == p) = some workspace)
    (hk : strFalsy k = false)
    (hid : findIdempotency st workspace.id (k.getD "") "POST"
      (publicBookingPath p) = some rec)
    (hhash : rec.requestHash ≠ body) :
    createPublicBooking tzs fieldCheck st p k body now =
      (.failed (.conflict "Idempotency-Key reuse with different payload"), st) := by
  simp only [createPublicBooking, hw, hk, hid]
  rw [if_neg (by simp [hk]), if_pos (by simp [bne, hhash])]

lemma find?_singleton_of_pos {α : Type} {p : α → Bool} {a : α} (h : p a = true) :
    List.find? p [a] = some a := by
  simp [List.find?, h]

/-- A successful public booking creation: the workspace exists, the key was
present, no prior ledger record matched, exactly the snapshot's booking was
appended, and the ledger now holds a record for (tenant, key, POST, path)
whose request hash is the submitted body and whose snapshot is the returned
one. -/
lemma createPublicBooking_created (tzs : TimeZones)
    (fieldCheck : ContactFields → Option String) (st : AppState) (p : String)
    (k : Option String) (body : BookingBody) (now : Instant) (snap : Snapshot)
    (h : (createPublicBooking tzs fieldCheck st p k body now).1 = .created snap) :
    ∃ workspace, st.workspaces.find? (fun w => w.id == p) = some workspace ∧
      strFalsy k = false ∧
      findIdempotency st workspace.id (k.getD "") "POST"
        (publicBookingPath p) = none ∧
      (createPublicBooking tzs fieldCheck st p k body now).2.workspaces =
        st.workspaces ∧
      (createPublicBooking tzs fieldCheck st p k body now).2.bookings =
        st.bookings ++ [snap.booking] ∧
      ∃ rec : IdempotencyKey,
        findIdempotency (createPublicBooking tzs fieldCheck st p k body now).2
          workspace.id (k.getD "") "POST" (publicBookingPath p) = some rec ∧
        rec.requestHash = body ∧ rec.responseSnapshot = snap := by
  cases hw : st.workspaces.find? (fun w => w.id == p) with
  | none => simp [createPublicBooking, hw] at h
  | some workspace =>
    cases hk : strFalsy k with
    | true =>
      simp only [createPublicBooking, hw] at h
      rw [if_pos hk] at h
      simp at h
    | false =>
      cases hid : findIdempotency st workspace.id (k.getD "") "POST"
          (publicBookingPath p) with
      | some existing =>
        simp only [createPublicBooking, hw] at h
        rw [if_neg (by simp [hk])] at h
        simp only [hid] at h
        by_cases hh : (existing.requestHash != body) = true
        · rw [if_pos hh] at h
          simp at h
        · rw [if_neg hh] at h
          simp at h
      | none =>
        cases hsid : body.serviceId with
        | none =>
          simp only [createPublicBooking, hw] at h
          rw [if_neg (by simp [hk])] at h
          simp only [hid, hsid] at h
          simp at h
        | some serviceId =>
          cases hstart : body.startsAt with
          | none =>
            simp only [createPublicBooking, hw] at h
            rw [if_neg (by simp [hk])] at h
            simp only [hid, hsid, hstart] at h
            simp at h
          | some startsAt =>
            by_cases hsempty : (serviceId == "") = true
            · simp only [createPublicBooking, hw] at h
              rw [if_neg (by simp [hk])] at h
              simp only [hid, hsid, hstart] at h
              rw [if_pos hsempty] at h
              simp at h
            · cases hfc : fieldCheck body.fields with
              | some msg =>
                simp only [createPublicBooking, hw] at h
                rw [if_neg (by simp [hk])] at h
                simp only [hid, hsid, hstart] at h
                rw [if_neg hsempty] at h
                simp [hfc] at h
              | none =>
                cases hsvc : st.services.find? (fun item =>
                    item.workspaceId == workspace.id && item.id == serviceId &&
                    item.isActive) with
                | none =>
                  simp only [createPublicBooking, hw] at h
                  rw [if_neg (by simp [hk])] at h
                  simp only [hid, hsid, hstart] at h
                  rw [if_neg hsempty] at h
                  simp [hfc, hsvc] at h
                | some service =>
                  by_cases havail : (!isWithinAvailabilityRule
                     (tzs (effectiveTimezone workspace)) st.availabilityRules
                      workspace.id service.id startsAt
                      (addMinutes startsAt service.durationMin)
                      service.durationMin) = true
                  · simp only [createPublicBooking, hw] at h
                    rw [if_neg (by simp [hk])] at h
                    simp only [hid, hsid, hstart] at h
                    rw [if_neg hsempty] at h
                    simp only [hfc, hsvc] at h
                    rw [if_pos havail] at h
                    simp at h
                  · by_cases hov : isBookingOverlapping st.bookings workspace.id
                        startsAt (addMinutes startsAt service.durationMin) none = true
                    · simp only [createPublicBooking, hw] at h
                      rw [if_neg (by simp [hk])] at h
                      simp only [hid, hsid, hstart] at h
                      rw [if_neg hsempty] at h
                      simp only [hfc, hsvc] at h
                      rw [if_neg (by simpa using havail), if_pos hov] at h
                      simp at h
                    · simp only [createPublicBooking, hw] at h ⊢
                      rw [if_neg (by simp [hk])] at h ⊢
                      simp only [hid, hsid, hstart] at h ⊢
                      rw [if_neg hsempty] at h ⊢
                      simp only [hfc, hsvc] at h ⊢
                      rw [if_neg (by simpa using havail), if_neg hov] at h ⊢
                      split at h
                      · rename_i template heq
                        simp only [heq]
                        simp only at h
                        injection h with h
                        subst h
                        refine ⟨workspace, rfl, by simp, by simp [hid], by simp,
                          by simp, ?_⟩
                        have hid' : st.idempotencyKeys.find? (fun item =>
                            item.workspaceId == workspace.id &&
                            item.key == k.getD "" && item.method == "POST" &&
                            item.path == publicBookingPath p) = none := hid
                        simp only [findIdempotency, saveIdempotency_idempotencyKeys,
                          emitEvent_idempotencyKeys, enqueueJob_idempotencyKeys,
                          createFormRequest_idempotencyKeys,
                          findOrCreateContact_idempotencyKeys, allocId_idempotencyKeys]
                        rw [find?_append_of_none hid']
                        refine ⟨_, find?_singleton_of_pos ?_, rfl, rfl⟩
                        simp
                      · rename_i heq
                        simp only [heq]
                        simp only at h
                        injection h with h
                        subst h
                        refine ⟨workspace, rfl, by simp, by simp [hid], by simp,
                          by simp, ?_⟩
                        have hid' : st.idempotencyKeys.find? (fun item =>
                            item.workspaceId == workspace.id &&
                            item.key == k.getD "" && item.method == "POST" &&
                            item.path == publicBookingPath p) = none := hid
                        simp only [findIdempotency, saveIdempotency_idempotencyKeys,
                          emitEvent_idempotencyKeys, enqueueJob_idempotencyKeys,
                          createFormRequest_idempotencyKeys,
                          findOrCreateContact_idempotencyKeys, allocId_idempotencyKeys]
                        rw [find?_append_of_none hid']
                        refine ⟨_, find?_singleton_of_pos ?_, rfl, rfl⟩
                        simp

/-- C8: the idempotency ledger contract of the public booking route.  With a
ledger record for the same (tenant, key, POST, path): a matching request hash
replays the stored response snapshot with no state change; a differing hash
fails with a Conflict and no state change.  A successful creation appends
exactly one booking and writes a ledger record such that resubmitting the
identical payload replays the identical snapshot and leaves the state of the
first call untouched — one booking total. -/
theorem C8_idempotency_ledger (tzs : TimeZones)
    (fieldCheck : ContactFields → Option String) (st : AppState) (p : String)
    (k : Option String) (body : BookingBody) (now : Instant) :
    (∀ workspace rec,
      st.workspaces.find? (fun w => w.id == p) = some workspace →
      strFalsy k = false →
      findIdempotency st workspace.id (k.getD "") "POST" (publicBookingPath p) =
        some rec →
      rec.requestHash = body →
      createPublicBooking tzs fieldCheck st p k body now =
        (.replayed rec.responseSnapshot, st)) ∧
    (∀ workspace rec,
      st.workspaces.find? (fun w => w.id == p) = some workspace →
      strFalsy k = false →
      findIdempotency st workspace.id (k.getD "") "POST" (publicBookingPath p) =
        some rec →
      rec.requestHash ≠ body →
      createPublicBooking tzs fieldCheck st p k body now =
        (.failed (.conflict "Idempotency-Key reuse with different payload"), st)) ∧
    (∀ snap, (createPublicBooking tzs fieldCheck st p k body now).1 = .created snap →
      (createPublicBooking tzs fieldCheck st p k body now).2.bookings =
        st.bookings ++ [snap.booking] ∧
      createPublicBooking tzs fieldCheck
          (createPublicBooking tzs fieldCheck st p k body now).2 p k body now =
        (.replayed snap, (createPublicBooking tzs fieldCheck st p k body now).2)) := by
  refine ⟨fun workspace rec hw hk hid hh =>
      createPublicBooking_replays tzs fieldCheck st p k body now workspace rec
        hw hk hid hh,
    fun workspace rec hw hk hid hh =>
      createPublicBooking_conflicts tzs fieldCheck st p k body now workspace rec
        hw hk hid hh, ?_⟩
  intro snap h
  obtain ⟨workspace, hw, hk, _, hwork, hbook, rec, hfind, hhash, hsnap⟩ :=
    createPublicBooking_created tzs fieldCheck st p k body now snap h
  refine ⟨hbook, ?_⟩
  have hw2 : (createPublicBooking tzs fieldCheck st p k body now).2.workspaces.find?
      (fun w => w.id == p) = some workspace := by rw [hwork]; exact hw
  have hrep := createPublicBooking_replays tzs fieldCheck
    (createPublicBooking tzs fieldCheck st p k body now).2 p k body now workspace rec
    hw2 hk hfind hhash
  rw [hrep, hsnap]

/-- C8 instantiated: submitting the same booking payload twice under the same
idempotency key creates exactly one booking and replays the identical
snapshot, with no state change on the second call. -/
theorem C8_witness :
    (createPublicBooking tzsC8 (fun _ => none) stC8 "w" (some "key-1")
      bodyC8 0).2.bookings = stC8.bookings ++ [snapC8.booking] ∧
    createPublicBooking tzsC8 (fun _ => none)
        ((createPublicBooking tzsC8 (fun _ => none) stC8 "w" (some "key-1")
          bodyC8 0).2) "w" (some "key-1") bodyC8 0 =
      (.replayed snapC8,
        (createPublicBooking tzsC8 (fun _ => none) stC8 "w" (some "key-1")
          bodyC8 0).2) :=
  (C8_idempotency_ledger tzsC8 (fun _ => none) stC8 "w" (some "key-1") bodyC8 0).2.2
    snapC8 (by decide)

lemma processJob_scheduledJobs (st : AppState) (now : Instant) (jobId : String) :
    (processJob st now jobId).scheduledJobs =
      match st.scheduledJobs.find? (jobPred jobId) with
      | none => st.scheduledJobs
      | some _ => updateFirstBy (jobPred jobId)
          (fun j => { j with status := JobStatus.done, attempts := j.attempts + 1 })
          st.scheduledJobs := by
  cases hfind : st.scheduledJobs.find? (jobPred jobId) with
  | none => simp [processJob, hfind]
  | some job =>
    simp only [processJob, hfind]
    repeat' split
    all_goals simp

lemma workerStep_scheduledJobs (acc : AppState) (now : Instant) (j0 : ScheduledJob)
    (hfind : acc.scheduledJobs.find? (jobPred j0.id) = some j0) :
    (processJob (markJobRunning acc now j0.id) now j0.id).scheduledJobs =
      updateFirstBy (jobPred j0.id)
        (fun j => { j with status := JobStatus.done, attempts := j.attempts + 1 })
        (updateFirstBy (jobPred j0.id)
          (fun j => { j with
                      status := JobStatus.running
                      lockedAt := some now
                      lockOwner := some "local-worker-1" })
          acc.scheduledJobs) := by
  have hmk : (markJobRunning acc now j0.id).scheduledJobs =
      updateFirstBy (jobPred j0.id)
        (fun j => { j with
                    status := JobStatus.running
                    lockedAt := some now
                    lockOwner := some "local-worker-1" })
        acc.scheduledJobs := rfl
  have hfind2 : ((markJobRunning acc now j0.id).scheduledJobs).find? (jobPred j0.id) =
      some { j0 with
             status := JobStatus.running
             lockedAt := some now
             lockOwner := some "local-worker-1" } := by
    rw [hmk, @find?_updateFirstBy_self _ (jobPred j0.id)
      (fun j => { j with status := JobStatus.running, lockedAt := some now, lockOwner := some "local-worker-1" })
      (fun x hx => hx) acc.scheduledJobs, hfind]
    rfl
  rw [processJob_scheduledJobs, hfind2, hmk]

lemma find?_after_run {i jid : String} (hne : jid ≠ i) (now : Instant)
    (l : List ScheduledJob) :
    (updateFirstBy (jobPred jid)
      (fun j => { j with status := JobStatus.running, lockedAt := some now, lockOwner := some "local-worker-1" })
      l).find? (jobPred i) = l.find? (jobPred i) := by
  apply find?_updateFirstBy_other
  · intro x hx
    have hx' : x.id = jid := by simpa [jobPred] using hx
    simp [jobPred, hx', hne]
  · intro x
    simp [jobPred]

lemma find?_after_done {i jid : String} (hne : jid ≠ i)
    (l : List ScheduledJob) :
    (updateFirstBy (jobPred jid)
      (fun j => { j with status := JobStatus.done, attempts := j.attempts + 1 })
      l).find? (jobPred i) = l.find? (jobPred i) := by
  apply find?_updateFirstBy_other
  · intro x hx
    have hx' : x.id = jid := by simpa [jobPred] using hx
    simp [jobPred, hx', hne]
  · intro x
    simp [jobPred]

lemma find?_done_run_self (jid : String) (now : Instant) (l : List ScheduledJob)
    (j0 : ScheduledJob) (hfind : l.find? (jobPred jid) = some j0) :
    (updateFirstBy (jobPred jid)
      (fun j => { j with status := JobStatus.done, attempts := j.attempts + 1 })
      (updateFirstBy (jobPred jid)
        (fun j => { j with status := JobStatus.running, lockedAt := some now, lockOwner := some "local-worker-1" })
        l)).find? (jobPred jid) =
      some { j0 with status := JobStatus.done, attempts := j0.attempts + 1, lockedAt := some now, lockOwner := some "local-worker-1" } := by
  rw [@find?_updateFirstBy_self _ (jobPred jid)
    (fun j => { j with status := JobStatus.done, attempts := j.attempts + 1 })
    (fun x hx => hx) _]
  rw [@find?_updateFirstBy_self _ (jobPred jid)
    (fun j => { j with status := JobStatus.running, lockedAt := some now, lockOwner := some "local-worker-1" })
    (fun x hx => hx) l]
  rw [hfind]
  rfl

lemma workerFold_preserves (now : Instant) :
    ∀ (L : List ScheduledJob) (acc : AppState) (i : String),
      (∀ j ∈ L, j.id ≠ i) →
      (L.foldl (fun a job => processJob (markJobRunning a now job.id) now job.id)
        acc).scheduledJobs.find? (jobPred i) =
        acc.scheduledJobs.find? (jobPred i) := by
  intro L
  induction L with
  | nil => intro acc i _; rfl
  | cons j0 rest ih =>
    intro acc i hne
    rw [List.foldl_cons,
      ih _ i (fun j hj => hne j (List.mem_cons_of_mem _ hj))]
    have hid0 : j0.id ≠ i := hne j0 (List.mem_cons_self _ _)
    rw [processJob_scheduledJobs]
    have hmk : (markJobRunning acc now j0.id).scheduledJobs =
        updateFirstBy (jobPred j0.id)
          (fun j => { j with status := JobStatus.running, lockedAt := some now, lockOwner := some "local-worker-1" })
          acc.scheduledJobs := rfl
    rw [hmk]
    cases hf : (updateFirstBy (jobPred j0.id)
        (fun j => { j with status := JobStatus.running, lockedAt := some now, lockOwner := some "local-worker-1" })
        acc.scheduledJobs).find? (jobPred j0.id) with
    | none => exact find?_after_run hid0 now acc.scheduledJobs
    | some job =>
      rw [find?_after_done hid0, find?_after_run hid0 now acc.scheduledJobs]

lemma workerFold_done (now : Instant) :
    ∀ (L : List ScheduledJob) (acc : AppState),
      (L.map (fun j => j.id)).Nodup →
      (∀ j ∈ L, acc.scheduledJobs.find? (jobPred j.id) = some j) →
      ∀ j ∈ L,
        (L.foldl (fun a job => processJob (markJobRunning a now job.id) now job.id)
          acc).scheduledJobs.find? (jobPred j.id) =
          some { j with status := JobStatus.done, attempts := j.attempts + 1, lockedAt := some now, lockOwner := some "local-worker-1" } := by
  intro L
  induction L with
  | nil => intro acc _ _ j hj; cases hj
  | cons j0 rest ih =>
    intro acc hnd hfind j hj
    rw [List.map_cons, List.nodup_cons] at hnd
    have hfind0 := hfind j0 (List.mem_cons_self _ _)
    have hstep := workerStep_scheduledJobs acc now j0 hfind0
    rw [List.foldl_cons]
    rcases List.mem_cons.mp hj with rfl | hjr
    · have hne : ∀ x ∈ rest, x.id ≠ j.id := by
        intro x hx hEq
        exact hnd.1 (hEq ▸ List.mem_map_of_mem _ hx)
      rw [workerFold_preserves now rest _ j.id hne, hstep]
      exact find?_done_run_self j.id now acc.scheduledJobs j hfind0
    · refine ih _ hnd.2 ?_ j hjr
      intro x hx
      have hnex : j0.id ≠ x.id := by
        intro hEq
        exact hnd.1 (hEq ▸ List.mem_map_of_mem _ hx)
      rw [hstep, find?_after_done hnex, find?_after_run hnex]
      exact hfind x (List.mem_cons_of_mem _ hx)

lemma find?_jobPred_of_nodup {l : List ScheduledJob}
    (hnd : (l.map (fun j => j.id)).Nodup) {j : ScheduledJob} (hj : j ∈ l) :
    l.find? (jobPred j.id) = some j := by
  induction l with
  | nil => cases hj
  | cons a as ih =>
    rw [List.map_cons, List.nodup_cons] at hnd
    rcases List.mem_cons.mp hj with rfl | hj'
    · simp [List.find?, jobPred]
    · have hne : a.id ≠ j.id := by
        intro hEq
        exact hnd.1 (hEq ▸ List.mem_map_of_mem _ hj')
      simp only [List.find?]
      rw [show jobPred j.id a = false by simp [jobPred, hne]]
      exact ih hnd.2 hj'

/-- C9: the worker tick contract.  The selected batch holds at most ten jobs,
all queued and due (`runAt ≤ now`) and drawn from the store, ordered by
priority weight (high before normal before low) and then by due instant; and
when job ids are unique, every selected job ends the tick done, locked by the
local worker, with its attempt counter incremented by one. -/
theorem C9_worker_tick (st : AppState) (now : Instant)
    (hnd : (st.scheduledJobs.map (fun j => j.id)).Nodup) :
    (selectDueJobs st.scheduledJobs now).length ≤ 10 ∧
    (∀ j ∈ selectDueJobs st.scheduledJobs now,
      j ∈ st.scheduledJobs ∧ j.status = .queued ∧ j.runAt ≤ now) ∧
    (selectDueJobs st.scheduledJobs now).Sorted jobLe ∧
    (∀ j ∈ selectDueJobs st.scheduledJobs now,
      (runWorkerTick st now).scheduledJobs.find? (jobPred j.id) =
        some { j with status := JobStatus.done, attempts := j.attempts + 1, lockedAt := some now, lockOwner := some "local-worker-1" }) := by
  have hmem : ∀ j ∈ selectDueJobs st.scheduledJobs now,
      j ∈ st.scheduledJobs ∧ j.status = .queued ∧ j.runAt ≤ now := by
    intro j hj
    have h1 : j ∈ List.insertionSort jobLe
        (st.scheduledJobs.filter fun job =>
          job.status == JobStatus.queued && decide (job.runAt ≤ now)) :=
      List.take_subset _ _ hj
    have h2 : j ∈ st.scheduledJobs.filter fun job =>
        job.status == JobStatus.queued && decide (job.runAt ≤ now) :=
      (List.perm_insertionSort jobLe _).mem_iff.mp h1
    have h3 := List.mem_filter.mp h2
    refine ⟨h3.1, ?_, ?_⟩
    · have := h3.2
      simp only [Bool.and_eq_true, beq_iff_eq, decide_eq_true_eq] at this
      exact this.1
    · have := h3.2
      simp only [Bool.and_eq_true, beq_iff_eq, decide_eq_true_eq] at this
      exact this.2
  refine ⟨List.length_take_le _ _, hmem, ?_, ?_⟩
  · exact ((List.sorted_insertionSort jobLe _).sublist (List.take_sublist _ _))
  · have hnd1 : ((st.scheduledJobs.filter fun job =>
        job.status == JobStatus.queued && decide (job.runAt ≤ now)).map
          (fun j => j.id)).Nodup :=
      hnd.sublist ((List.filter_sublist _).map _)
    have hnd2 : ((List.insertionSort jobLe
        (st.scheduledJobs.filter fun job =>
          job.status == JobStatus.queued && decide (job.runAt ≤ now))).map
            (fun j => j.id)).Nodup :=
      (((List.perm_insertionSort jobLe _).map _).nodup_iff).mpr hnd1
    have hnd3 : ((selectDueJobs st.scheduledJobs now).map (fun j => j.id)).Nodup :=
      hnd2.sublist ((List.take_sublist _ _).map _)
    have hrun : runWorkerTick st now =
        (selectDueJobs st.scheduledJobs now).foldl
          (fun a job => processJob (markJobRunning a now job.id) now job.id)
          (cleanupExpiredRecords st now) := rfl
    rw [hrun]
    exact workerFold_done now (selectDueJobs st.scheduledJobs now)
      (cleanupExpiredRecords st now) hnd3
      (fun j hj => find?_jobPred_of_nodup hnd (hmem j hj).1)

/-- C9 instantiated: with two fresh due queued jobs, the tick selects them in
priority order and finishes both done with attempts 1. -/
theorem C9_witness :
    (selectDueJobs stC9.scheduledJobs 10).length ≤ 10 ∧
    (∀ j ∈ selectDueJobs stC9.scheduledJobs 10,
      j ∈ stC9.scheduledJobs ∧ j.status = .queued ∧ j.runAt ≤ 10) ∧
    (selectDueJobs stC9.scheduledJobs 10).Sorted jobLe ∧
    (∀ j ∈ selectDueJobs stC9.scheduledJobs 10,
      (runWorkerTick stC9 10).scheduledJobs.find? (jobPred j.id) =
        some { j with status := JobStatus.done, attempts := j.attempts + 1, lockedAt := some 10, lockOwner := some "local-worker-1" }) :=
  C9_worker_tick stC9 10 (by decide)

end CareOps
